import Mathlib

/-!
O2Physics analysis tasks: a verification development.

Shallow embedding of

* `EventFiltering/macros/checkBCRange.C` (both overloads of `checkBCRange`),
* `PWGEM/PhotonMeson/Core/CutsLibrary.cxx` and `EMCPhotonCut.h`,
* `PWGLF/Tasks/NucleiHistTask.cxx` (`init`, `fillHistograms`),
* `DPG/Tasks/AOTTrack/qaMatchEff.cxx` (`init`),

followed by the theorems about them.

Conventions of the embedding.

* `float` / `double` values are rationals (`ℚ`): comparisons and products are exact, NaN and
  infinities are not represented, and a literal such as `0.7f` is the decimal number it spells.
  The track-matching cut of `EMCPhotonCut.h` is the exception:
  its result depends on the rounding of a difference and of the quotient E/p and on the infinity
  that a zero divisor gives, so these are computed in binary32 (`PWGEM.F32`).
* `int` values are integers (`Int`); the one operation of the sources that can leave the 32-bit
  range, `TMath::Abs` of the PDG code, wraps as the machine does (`QaMatchEff.TMath.Abs`).
* `ULong64_t` tree branches are natural numbers.
* A ROOT tree is the list of its entries, a ROOT file the list of its keys in the order
  `GetListOfKeys` yields them.
* `std::cout` / `std::cerr` output is a list of `Line`s, `LOG(fatal)` is `Except.error`.
-/

set_option autoImplicit false

/-! ## EventFiltering/macros/checkBCRange.C -/

namespace CheckBCRange

/-- Modelled from the spec: `o2::InteractionRecord` (CommonDataFormat/InteractionRecord.h is not
among the sources). The spec calls the records "point timestamps"; a record is the timestamp it
was set from, and records compare as their timestamps do. -/
structure InteractionRecord where
  toLong : Nat
deriving DecidableEq, Repr

/-- Modelled from the spec: `InteractionRecord::setFromLong`, which makes the record of a
timestamp. -/
def InteractionRecord.setFromLong (l : Nat) : InteractionRecord := ⟨l⟩

/-- Modelled from the spec: `o2::dataformats::IRFrame` (CommonDataFormat/IRFrame.h is not among
the sources), the interval with bounds (start, end). -/
structure IRFrame where
  start : InteractionRecord
  stop : InteractionRecord
deriving DecidableEq, Repr

/-- Modelled from the spec: `IRFrame::isOutside`. The spec's invariant is that a point is inside
iff it lies within `[start, end]`; a point is outside when it is below the start or above the
end. -/
def IRFrame.isOutside (frame : IRFrame) (t : InteractionRecord) : Bool :=
  decide (t.toLong < frame.start.toLong) || decide (frame.stop.toLong < t.toLong)

/-- One entry of the tree `O2bcranges`: branches `fBCstart`, `fBCend`. -/
structure BCRange where
  fBCstart : Nat
  fBCend : Nat
deriving DecidableEq, Repr

/-- One entry of the tree `O2cefpdecision`: branches `fGlobalBCId`, `fCefpSelected`. -/
structure Decision where
  fGlobalBCId : Nat
  fCefpSelected : Nat
deriving DecidableEq, Repr

/-- What a key of the file names: a `TDirectory` with the two trees it may hold, or any other
object. -/
inductive KeyObject where
  | directory (O2bcranges : Option (List BCRange)) (O2cefpdecision : Option (List Decision))
  | other
deriving DecidableEq, Repr

/-- A key of a ROOT file. -/
structure Key where
  name : String
  obj : KeyObject
deriving DecidableEq, Repr

/-- A ROOT file: its list of keys. -/
abbrev TFile := List Key

/-- The tree found by `file.Get(Form("%s/O2bcranges", key->GetName()))`, or
`dir->Get("O2bcranges")` on the key's directory; `none` is the null pointer. -/
def Key.getRanges (k : Key) : Option (List BCRange) :=
  match k.obj with
  | .directory r _ => r
  | .other => none

/-- The tree found by `file.Get(Form("%s/O2cefpdecision", key->GetName()))`. -/
def Key.getDecision (k : Key) : Option (List Decision) :=
  match k.obj with
  | .directory _ d => d
  | .other => none

/-- The test `dynamic_cast<TDirectory*>(rangeFile.Get(key->GetName()))` succeeds. -/
def Key.isDirectory (k : Key) : Bool :=
  match k.obj with
  | .directory _ _ => true
  | .other => false

/-- A line of output. -/
inductive Line where
  /-- On `std::cerr`: "Error: could not find the required trees in directory `dirName`". -/
  | cerrMissingTrees (dirName : String)
  /-- On `std::cout`: "Found `notFound` BCs not in ranges out of `total`". -/
  | coutFound (notFound : Nat) (total : Nat)
deriving DecidableEq, Repr

/-- The frame `IRFrame frame(irstart, irend)` built from one entry of `O2bcranges`. -/
def frameOf (r : BCRange) : IRFrame :=
  ⟨InteractionRecord.setFromLong r.fBCstart, InteractionRecord.setFromLong r.fBCend⟩

/-- The loop over the decision tree: every entry with `cefpSelected != 0` pushes its record to
the back of `bcids` (lines 51-58 and 127-134). -/
def pushSelected (bcids : List InteractionRecord) (tree : List Decision) :
    List InteractionRecord :=
  tree.foldl
    (fun acc e =>
      if e.fCefpSelected == 0 then acc
      else acc ++ [InteractionRecord.setFromLong e.fGlobalBCId])
    bcids

/-- Lines 69-74: `for i < bcids.size(): if (!frame.isOutside(bcids[i])) found[i] = true`. -/
def markFrame (frame : IRFrame) (bcids : List InteractionRecord) (found : List Bool) :
    List Bool :=
  (List.range bcids.length).foldl
    (fun fnd i =>
      if !frame.isOutside (bcids.getD i ⟨0⟩) then fnd.set i true else fnd)
    found

/-- Lines 59-75 of the one-file overload: `found` starts all `false`, and every entry of the
ranges tree marks the records its frame holds. -/
def foundInRanges (ranges : List BCRange) (bcids : List InteractionRecord) : List Bool :=
  ranges.foldl (fun fnd r => markFrame (frameOf r) bcids fnd)
    (List.replicate bcids.length false)

/-- Lines 139-144 of the two-file overload: the scan of the frames for one record, leaving at
the first frame that holds it (`break`). The result is whether `found[i]` was set. -/
def scanFrames : List IRFrame → InteractionRecord → Bool
  | [], _ => false
  | frame :: rest, bcid => if !frame.isOutside bcid then true else scanFrames rest bcid

/-- Lines 137-145 of the two-file overload. -/
def foundInFrames (frames : List IRFrame) (bcids : List InteractionRecord) : List Bool :=
  (List.range bcids.length).foldl
    (fun fnd i =>
      if scanFrames frames (bcids.getD i ⟨0⟩) then fnd.set i true else fnd)
    (List.replicate bcids.length false)

/-- Lines 76-79 and 146-149: `notFound += !found[i]` for every `i < bcids.size()`. -/
def countNotFound (bcids : List InteractionRecord) (found : List Bool) : Nat :=
  (List.range bcids.length).foldl
    (fun notFound i => notFound + (if found.getD i false then 0 else 1))
    0

/-- The body of the loop over the directories of the one-file overload once both trees are
there (lines 41-80): the line it prints. -/
def checkDirectory (treeRanges : List BCRange) (treeDecision : List Decision) : Line :=
  let bcids := pushSelected [] treeDecision
  let found := foundInRanges treeRanges bcids
  Line.coutFound (countNotFound bcids found) bcids.length

/-- The overload `checkBCRange(const char* filename)`, lines 23-82: the output, directory by
directory. -/
def checkBCRange (inputFile : TFile) : List Line :=
  inputFile.foldl
    (fun out directoryKey =>
      match directoryKey.getRanges, directoryKey.getDecision with
      | some treeRanges, some treeDecision => out ++ [checkDirectory treeRanges treeDecision]
      | _, _ => out ++ [Line.cerrMissingTrees directoryKey.name])
    []

/-- Lines 91-111 of the two-file overload: the frames of every `O2bcranges` tree of the range
file. A key that is no directory, or whose directory has no such tree, is passed over. -/
def collectFrames (rangeFile : TFile) : List IRFrame :=
  rangeFile.foldl
    (fun frames key =>
      if !key.isDirectory then frames
      else
        match key.getRanges with
        | none => frames
        | some tree => tree.foldl (fun fr r => fr ++ [frameOf r]) frames)
    []

/-- Lines 114-135 of the two-file overload: the selected records of every `O2cefpdecision` tree
of the input file. A key without the tree is passed over. -/
def collectBCs (inputFile : TFile) : List InteractionRecord :=
  inputFile.foldl
    (fun bcids key =>
      match key.getDecision with
      | none => bcids
      | some treeDecision => pushSelected bcids treeDecision)
    []

/-- The overload `checkBCRange(const char* filename, const char* rangeFileName)`, lines 84-151:
its output. -/
def checkBCRangeWithRangeFile (inputFile rangeFile : TFile) : List Line :=
  let frames := collectFrames rangeFile
  let bcids := collectBCs inputFile
  let found := foundInFrames frames bcids
  [Line.coutFound (countNotFound bcids found) bcids.length]

/-! ### The counts in the spec's words

The definitions below are not taken from the code: they say in the words of the specification
which entries are counted, and the theorems compare the code with them. -/

/-- The decision entries with `cefpSelected != 0`. -/
def selectedEntries (decision : List Decision) : List Decision :=
  decision.filter (fun e => e.fCefpSelected != 0)

/-- The timestamp lies in at least one range, both ends included. -/
def inSomeRange (ranges : List BCRange) (bc : Nat) : Bool :=
  ranges.any (fun r => decide (r.fBCstart ≤ bc) && decide (bc ≤ r.fBCend))

/-- The selected decision entries whose BC lies in no range. -/
def entriesNotInRanges (ranges : List BCRange) (decision : List Decision) : List Decision :=
  (selectedEntries decision).filter (fun e => !inSomeRange ranges e.fGlobalBCId)

/-- All entries of the `O2bcranges` trees of the directories of a file. -/
def rangeEntries (file : TFile) : List BCRange :=
  file.flatMap (fun k => if k.isDirectory then k.getRanges.getD [] else [])

/-- All entries of the `O2cefpdecision` trees of the directories of a file. -/
def decisionEntries (file : TFile) : List Decision :=
  file.flatMap (fun k => k.getDecision.getD [])

end CheckBCRange

/-! ## PWGEM/PhotonMeson/Core/EMCPhotonCut.h -/

namespace PWGEM

/-- The enumeration `EMCPhotonCut::EMCPhotonCuts`. -/
inductive EMCPhotonCuts where
  | kEnergy
  | kNCell
  | kM02
  | kTiming
  | kTM
  | kExotic
  | kNCuts
deriving DecidableEq, Repr

/-- The columns of a cluster that the cuts read. -/
structure Cluster where
  e : ℚ
  nCells : Int
  m02 : ℚ
  time : ℚ
  eta : ℚ
  phi : ℚ
  isExotic : Bool

/-- The columns of a pre-matched track that the cuts read. -/
structure Track where
  tracketa : ℚ
  trackphi : ℚ
  trackpt : ℚ
  trackp : ℚ

/-- The data members of `EMCPhotonCut`, with their in-class initialisers (lines 118-128). A
`std::function` member is `none` while it is empty. -/
structure EMCPhotonCut where
  name : String
  title : String
  mMinE : ℚ := 7 / 10
  mMinNCell : Int := 1
  mMinM02 : ℚ := 1 / 10
  mMaxM02 : ℚ := 7 / 10
  mMinTime : ℚ := -20
  mMaxTime : ℚ := 25
  mMinEoverP : ℚ := 7 / 4
  mUseExoticCut : Bool := true
  mTrackMatchingEta : Option (ℚ → ℚ) := none
  mTrackMatchingPhi : Option (ℚ → ℚ) := none

/-- Modelled from the spec: the setters are declared in the header (lines 104-111) and defined in
EMCPhotonCut.cxx, which is not among the sources. Each stores its argument in the member it is
named after, which makes the cut a "pre-populated parameter object". -/
def EMCPhotonCut.SetMinE (cut : EMCPhotonCut) (min : ℚ) : EMCPhotonCut :=
  { cut with mMinE := min }

/-- Modelled from the spec: see `SetMinE`. -/
def EMCPhotonCut.SetMinNCell (cut : EMCPhotonCut) (min : Int) : EMCPhotonCut :=
  { cut with mMinNCell := min }

/-- Modelled from the spec: see `SetMinE`. -/
def EMCPhotonCut.SetM02Range (cut : EMCPhotonCut) (min max : ℚ) : EMCPhotonCut :=
  { cut with mMinM02 := min, mMaxM02 := max }

/-- Modelled from the spec: see `SetMinE`. -/
def EMCPhotonCut.SetTimeRange (cut : EMCPhotonCut) (min max : ℚ) : EMCPhotonCut :=
  { cut with mMinTime := min, mMaxTime := max }

/-- Modelled from the spec: see `SetMinE`. -/
def EMCPhotonCut.SetTrackMatchingEta (cut : EMCPhotonCut) (funcTM : ℚ → ℚ) : EMCPhotonCut :=
  { cut with mTrackMatchingEta := some funcTM }

/-- Modelled from the spec: see `SetMinE`. -/
def EMCPhotonCut.SetTrackMatchingPhi (cut : EMCPhotonCut) (funcTM : ℚ → ℚ) : EMCPhotonCut :=
  { cut with mTrackMatchingPhi := some funcTM }

/-- Modelled from the spec: see `SetMinE`. -/
def EMCPhotonCut.SetMinEoverP (cut : EMCPhotonCut) (min : ℚ) : EMCPhotonCut :=
  { cut with mMinEoverP := min }

/-- Modelled from the spec: see `SetMinE`. -/
def EMCPhotonCut.SetUseExoticCut (cut : EMCPhotonCut) (flag : Bool) : EMCPhotonCut :=
  { cut with mUseExoticCut := flag }

/-- The call of a `std::function` member: an empty one throws `std::bad_function_call`, which is
the result `none`. -/
def callFunction (f : Option (ℚ → ℚ)) (x : ℚ) : Option ℚ :=
  f.map (fun g => g x)

/-- The result of an operation on `float`s (IEEE 754 binary32): a finite value, an infinity, or
not a number. -/
inductive F32 where
  | finite (value : ℚ)
  | posInf
  | negInf
  | nan

/-- The integer nearest to `q`, the even one of the two when `q` lies halfway. -/
def roundHalfEven (q : ℚ) : ℤ :=
  let f := ⌊q⌋
  if q - f < 1 / 2 then f
  else if q - f > 1 / 2 then f + 1
  else if f % 2 = 0 then f else f + 1

/-- The exponent `e` with `2 ^ e ≤ a < 2 ^ (e + 1)`, for `a > 0`. -/
def binade (a : ℚ) : ℤ :=
  let e0 : ℤ := (Nat.log2 a.num.natAbs : ℤ) - (Nat.log2 a.den : ℤ)
  if a < (2 : ℚ) ^ e0 then e0 - 1 else e0

/-- Rounding of an exact result to binary32, to nearest and ties to even: 24 significant bits,
exponents from -126 (below it the spacing stays `2 ^ (-149)`) to 127, and an infinity when the
rounded magnitude reaches `2 ^ 128`. -/
def round32 (x : ℚ) : F32 :=
  if x = 0 then .finite 0
  else
    let e := min (max (binade |x|) (-126)) 127
    let quantum : ℚ := (2 : ℚ) ^ (e - 23)
    let r : ℚ := (roundHalfEven (|x| / quantum) : ℚ) * quantum
    if r ≥ (2 : ℚ) ^ (128 : ℤ) then (if x > 0 then .posInf else .negInf)
    else .finite (if x > 0 then r else -r)

/-- The difference `a - b` of two `float`s. -/
def F32.sub (a b : ℚ) : F32 := round32 (a - b)

/-- The quotient `a / b` of two `float`s. A zero divisor (taken as `+0`) gives an infinity of the
sign of `a`, and not-a-number for `0 / 0`. -/
def F32.div (a b : ℚ) : F32 :=
  if b = 0 then (if a > 0 then .posInf else if a < 0 then .negInf else .nan)
  else round32 (a / b)

/-- The function `fabs`. -/
def F32.abs : F32 → F32
  | .finite value => .finite |value|
  | .posInf => .posInf
  | .negInf => .posInf
  | .nan => .nan

/-- The comparison `x > y` with a finite `y`; false for not-a-number. -/
def F32.gt : F32 → ℚ → Bool
  | .finite value, y => decide (value > y)
  | .posInf, _ => true
  | .negInf, _ => false
  | .nan, _ => false

/-- The comparison `x >= y` with a finite `y`; false for not-a-number. -/
def F32.ge : F32 → ℚ → Bool
  | .finite value, y => decide (value ≥ y)
  | .posInf, _ => true
  | .negInf, _ => false
  | .nan, _ => false

/-- Line 77: `dEta = fabs(track.tracketa() - cluster.eta())`. -/
def dEta (cluster : Cluster) (track : Track) : F32 :=
  F32.abs (F32.sub track.tracketa cluster.eta)

/-- Line 78: `dPhi = fabs(track.trackphi() - cluster.phi())`. -/
def dPhi (cluster : Cluster) (track : Track) : F32 :=
  F32.abs (F32.sub track.trackphi cluster.phi)

/-- The case `kTM` of `IsSelectedEMCal` (line 93). The operands of `||` are evaluated from the
left and only as far as needed, so the phi function is called only when the eta test fails.
The columns, the members of the cut and the values of the two functions are finite `float`s;
the difference and the quotient are those of binary32. -/
def EMCPhotonCut.trackMatching (cut : EMCPhotonCut) (cluster : Cluster) (track : Track) :
    Option Bool :=
  (callFunction cut.mTrackMatchingEta track.trackpt).bind fun etaMax =>
    if (dEta cluster track).gt etaMax then some true
    else
      (callFunction cut.mTrackMatchingPhi track.trackpt).bind fun phiMax =>
        if (dPhi cluster track).gt phiMax then some true
        else some ((F32.div cluster.e track.trackp).ge cut.mMinEoverP)

/-- The method `EMCPhotonCut::IsSelectedEMCal(cluster, track, cut)`, lines 74-101: `some b` when
it returns `b` ("returns true if a cluster survives the cuts"), `none` when the call of an empty
`std::function` throws. -/
def EMCPhotonCut.IsSelectedEMCal (self : EMCPhotonCut) (cluster : Cluster) (track : Track)
    (cut : EMCPhotonCuts) : Option Bool :=
  match cut with
  | .kEnergy => some (decide (cluster.e > self.mMinE))
  | .kNCell => some (decide (cluster.nCells ≥ self.mMinNCell))
  | .kM02 => some (decide (self.mMinM02 ≤ cluster.m02) && decide (cluster.m02 ≤ self.mMaxM02))
  | .kTiming =>
    some (decide (self.mMinTime ≤ cluster.time) && decide (cluster.time ≤ self.mMaxTime))
  | .kTM => self.trackMatching cluster track
  | .kExotic => some (if self.mUseExoticCut then cluster.isExotic else true)
  | .kNCuts => some false

/-- The method `EMCPhotonCut::IsSelected(cluster)`, lines 48-70. Its body calls
`IsSelectedEMCal(cluster, cut)` with two arguments, while the header declares `IsSelectedEMCal`
with three (cluster, track, cut); the single-cut evaluator the calls resolve to is therefore the
parameter `isSelectedEMCal`. A call that throws ends `IsSelected` with the same exception. -/
def EMCPhotonCut.IsSelected {T : Type} (isSelectedEMCal : T → EMCPhotonCuts → Option Bool)
    (cluster : T) : Option Bool :=
  (isSelectedEMCal cluster .kEnergy).bind fun energy =>
    if !energy then some false
    else (isSelectedEMCal cluster .kNCell).bind fun nCell =>
      if !nCell then some false
      else (isSelectedEMCal cluster .kM02).bind fun m02 =>
        if !m02 then some false
        else (isSelectedEMCal cluster .kTiming).bind fun timing =>
          if !timing then some false
          else (isSelectedEMCal cluster .kTM).bind fun tm =>
            if !tm then some false
            else (isSelectedEMCal cluster .kExotic).bind fun exotic =>
              if !exotic then some false
              else some true

end PWGEM

/-! ## PWGEM/PhotonMeson/Core/CutsLibrary.cxx -/

namespace PWGEM

/-- Modelled from the spec: `V0PhotonCut` (V0PhotonCut.h is not among the sources), the
"pre-populated parameter object" of the PCM cuts. A field holds the arguments of the last call of
the setter of the same name, `none` while the setter has not been called. -/
structure V0PhotonCut where
  name : String
  title : String
  PtRange : Option (ℚ × ℚ) := none
  EtaRange : Option (ℚ × ℚ) := none
  MinNCrossedRowsTPC : Option Int := none
  MinNCrossedRowsOverFindableClustersTPC : Option ℚ := none
  MaxChi2PerClusterTPC : Option ℚ := none
  TPCNsigmaElRange : Option (ℚ × ℚ) := none
  RxyKFRange : Option (ℚ × ℚ) := none
  MaxMeePsiPairDep : Option (ℚ → ℚ) := none

/-- The lambda `[](float psipair) { return psipair < 0.4 ? 0.06 : 0.015; }`. -/
def meePsiPairDep (psipair : ℚ) : ℚ :=
  if psipair < 4 / 10 then 6 / 100 else 15 / 1000

/-- The function `o2::aod::pcmcuts::GetCut`, lines 16-57; `none` is the null pointer. -/
def pcmcuts.GetCut (cutName : String) : Option V0PhotonCut :=
  let cut : V0PhotonCut := { name := cutName, title := cutName }
  let nameStr : String := cutName
  if nameStr = "analysis" then
    some { cut with
      PtRange := some (1 / 100, 10000000000)
      EtaRange := some (-9 / 10, 9 / 10)
      MinNCrossedRowsTPC := some 30
      MinNCrossedRowsOverFindableClustersTPC := some (6 / 10)
      MaxChi2PerClusterTPC := some 4
      TPCNsigmaElRange := some (-3, 3)
      RxyKFRange := some (1, 90)
      MaxMeePsiPairDep := some meePsiPairDep }
  else if nameStr = "qc" then
    some { cut with
      PtRange := some (1 / 100, 10000000000)
      EtaRange := some (-9 / 10, 9 / 10)
      MinNCrossedRowsTPC := some 30
      MinNCrossedRowsOverFindableClustersTPC := some (6 / 10)
      MaxChi2PerClusterTPC := some 4
      TPCNsigmaElRange := some (-3, 3)
      RxyKFRange := some (0, 180)
      MaxMeePsiPairDep := some meePsiPairDep }
  else if nameStr = "nocut" then
    some { cut with
      PtRange := some (1 / 100, 10000000000)
      EtaRange := some (-9 / 10, 9 / 10)
      MinNCrossedRowsTPC := some 20
      MinNCrossedRowsOverFindableClustersTPC := some (6 / 10)
      MaxChi2PerClusterTPC := some 4 }
  else none

/-- The function `o2::aod::emccuts::GetCut`, lines 63-104; `none` is the null pointer. The
library function `pow` of the two track-matching lambdas of "standard" is a parameter. -/
def emccuts.GetCut (pow : ℚ → ℚ → ℚ) (cutName : String) : Option EMCPhotonCut :=
  let cut : EMCPhotonCut := { name := cutName, title := cutName }
  let nameStr : String := cutName
  if nameStr = "standard" then
    some (cut
      |>.SetMinE (7 / 10)
      |>.SetMinNCell 1
      |>.SetM02Range (1 / 10) (7 / 10)
      |>.SetTimeRange (-20) 25
      |>.SetTrackMatchingEta (fun pT => 1 / 100 + pow (pT + 407 / 100) (-5 / 2))
      |>.SetTrackMatchingPhi (fun pT => 15 / 1000 + pow (pT + 365 / 100) (-2))
      |>.SetMinEoverP (7 / 4)
      |>.SetUseExoticCut true)
  else if nameStr = "nocut" then
    some (cut
      |>.SetMinE 0
      |>.SetMinNCell 1
      |>.SetM02Range 0 1000
      |>.SetTimeRange (-500) 500
      |>.SetTrackMatchingEta (fun _ => -1)
      |>.SetTrackMatchingPhi (fun _ => -1)
      |>.SetMinEoverP 0
      |>.SetUseExoticCut false)
  else none

end PWGEM

/-! ## PWGLF/Tasks/NucleiHistTask.cxx -/

namespace NucleiHistTask

/-- The eleven `HistogramRegistry` members of the task (lines 42-52). -/
inductive Registry where
  | spectra
  | proton_erg
  | aproton_erg
  | deuteron_reg
  | adeuteron_reg
  | triton_reg
  | atriton_reg
  | Helium3_reg
  | aHelium3_reg
  | Helium4_reg
  | aHelium4_reg
deriving DecidableEq, Repr

/-- The histogram names used with `add` and `HIST(...)`. -/
inductive Hist where
  | histRecVtxZData
  | histTpcSignalData
  | histTofSignalData
  | histDcaVsPtData_particle
  | histDcaZVsPtData_particle
  | histDcaVsPtData_antiparticle
  | histDcaZVsPtData_antiparticle
  | histTOFm2
  | histNClusterTPC
  | histNClusterITS
  | histChi2TPC
  | histChi2ITS
  | histKeepEventData
  | histDcaVsPtData
  | histDcaZVsPtData
  | histTpcNsigmaData
  | histTofNsigmaData
  | histTpcNsigmaData_cent
  | histTofNsigmaData_cent
  | histTofm2_cent
deriving DecidableEq, Repr

/-- One call `registry.fill(HIST(hist), values...)`. -/
structure Fill where
  registry : Registry
  hist : Hist
  values : List ℚ
deriving DecidableEq

/-- The configurables read by `init` and `fillHistograms` (lines 253-270), with their default
values, and the two process switches (lines 768, 775). -/
structure Configurables where
  yMin : ℚ := -1 / 2
  yMax : ℚ := 1 / 2
  nsigmacutLow : ℚ := -3
  nsigmacutHigh : ℚ := 3
  minReqClusterITS : ℚ := 1
  minTPCnClsFound : ℚ := 0
  minNCrossedRowsTPC : ℚ := 70
  minRatioCrossedRowsTPC : ℚ := 8 / 10
  maxRatioCrossedRowsTPC : ℚ := 15 / 10
  maxChi2ITS : ℚ := 36
  maxChi2TPC : ℚ := 4
  maxDCA_XY : ℚ := 1 / 2
  maxDCA_Z : ℚ := 2
  doprocessData : Bool := true
  doprocessDataCent : Bool := false

/-- What the task takes from outside the repository: the rapidity of the `TLorentzVector` set by
`SetPtEtaPhiM(pt, eta, phi, m)` (ROOT) and the masses of `o2::constants::physics`. -/
structure Physics where
  Rapidity : ℚ → ℚ → ℚ → ℚ → ℚ
  MassProton : ℚ
  MassDeuteron : ℚ
  MassTriton : ℚ
  MassHelium3 : ℚ
  MassAlpha : ℚ

/-- The columns of a track that `fillHistograms` reads. -/
structure Track where
  tpcNClsFound : ℚ
  tpcNClsCrossedRows : ℚ
  tpcCrossedRowsOverFindableCls : ℚ
  tpcChi2NCl : ℚ
  itsChi2NCl : ℚ
  passedTPCRefit : Bool
  passedITSRefit : Bool
  itsNCls : ℚ
  isPVContributor : Bool
  sign : Int
  pt : ℚ
  eta : ℚ
  phi : ℚ
  dcaXY : ℚ
  dcaZ : ℚ
  tpcInnerParam : ℚ
  tpcSignal : ℚ
  tpcNSigmaPr : ℚ
  tpcNSigmaDe : ℚ
  tpcNSigmaTr : ℚ
  tpcNSigmaHe : ℚ
  tpcNSigmaAl : ℚ
  tofNSigmaPr : ℚ
  tofNSigmaDe : ℚ
  tofNSigmaTr : ℚ
  tofNSigmaHe : ℚ
  tofNSigmaAl : ℚ
  hasTOF : Bool
  mass : ℚ
  beta : ℚ

/-- The histograms `init` adds to the registry `spectra` (lines 69-80), in order. -/
def spectraHists : List Hist :=
  [.histRecVtxZData, .histTpcSignalData, .histTofSignalData, .histDcaVsPtData_particle,
    .histDcaZVsPtData_particle, .histDcaVsPtData_antiparticle, .histDcaZVsPtData_antiparticle,
    .histTOFm2, .histNClusterTPC, .histNClusterITS, .histChi2TPC, .histChi2ITS]

/-- The histograms `init` adds to each of the ten species registries (lines 83-250), in order:
the same fifteen names for every species. -/
def speciesHists : List Hist :=
  [.histKeepEventData, .histTpcSignalData, .histTofSignalData, .histDcaVsPtData,
    .histDcaZVsPtData, .histTOFm2, .histTpcNsigmaData, .histTofNsigmaData, .histNClusterTPC,
    .histNClusterITS, .histChi2TPC, .histChi2ITS, .histTpcNsigmaData_cent,
    .histTofNsigmaData_cent, .histTofm2_cent]

/-- The species registries in the order `init` fills them. -/
def speciesRegistries : List Registry :=
  [.proton_erg, .aproton_erg, .deuteron_reg, .adeuteron_reg, .triton_reg, .atriton_reg,
    .Helium3_reg, .aHelium3_reg, .Helium4_reg, .aHelium4_reg]

/-- The histograms booked by a complete run of `init`. -/
def bookedHistograms : List (Registry × Hist) :=
  spectraHists.map (fun h => (Registry.spectra, h))
    ++ speciesRegistries.flatMap (fun reg => speciesHists.map (fun h => (reg, h)))

/-- The method `NucleiHistTask::init`, lines 54-251: `LOG(fatal)` ends the job with the message,
otherwise the histograms are booked. -/
def init (cfg : Configurables) : Except String (List (Registry × Hist)) :=
  if cfg.doprocessData == true && cfg.doprocessDataCent == true then
    .error "Can't enable processData and processDataCent in the same time, pick one!"
  else
    .ok bookedHistograms

/-- The local variables of `fillHistograms` that the loop over the tracks changes: the ten
`keepEvent` flags, and the fills made so far. -/
structure LoopState where
  keepEvent_p : Bool := false
  keepEvent_d : Bool := false
  keepEvent_t : Bool := false
  keepEvent_He3 : Bool := false
  keepEvent_He4 : Bool := false
  keepEvent_antip : Bool := false
  keepEvent_antid : Bool := false
  keepEvent_antit : Bool := false
  keepEvent_antiHe3 : Bool := false
  keepEvent_antiHe4 : Bool := false
  fills : List Fill := []

/-- The condition of the first `continue` of the loop (line 302). -/
def failsTrackCuts (cfg : Configurables) (track : Track) : Bool :=
  decide (track.tpcNClsFound < cfg.minTPCnClsFound)
    || decide (track.tpcNClsCrossedRows < cfg.minNCrossedRowsTPC)
    || decide (track.tpcCrossedRowsOverFindableCls < cfg.minRatioCrossedRowsTPC)
    || decide (track.tpcCrossedRowsOverFindableCls > cfg.maxRatioCrossedRowsTPC)
    || decide (track.tpcChi2NCl > cfg.maxChi2TPC)
    || decide (track.itsChi2NCl > cfg.maxChi2ITS)
    || !track.passedTPCRefit
    || !track.passedITSRefit
    || decide (track.itsNCls < cfg.minReqClusterITS)
    || !track.isPVContributor

/-- The condition of the second `continue` (line 316). -/
def failsDCACuts (cfg : Configurables) (track : Track) : Bool :=
  decide (|track.dcaXY| > cfg.maxDCA_XY) || decide (|track.dcaZ| > cfg.maxDCA_Z)

/-- The condition of the third `continue` (lines 321-339): the rapidity under one of the five mass
hypotheses lies outside `[yMin, yMax]`. The helium vectors are set with twice the track pt. -/
def failsRapidityCut (cfg : Configurables) (phys : Physics) (track : Track) : Bool :=
  let yProton := phys.Rapidity track.pt track.eta track.phi phys.MassProton
  let yDeuteron := phys.Rapidity track.pt track.eta track.phi phys.MassDeuteron
  let yTriton := phys.Rapidity track.pt track.eta track.phi phys.MassTriton
  let yHe3 := phys.Rapidity (track.pt * 2) track.eta track.phi phys.MassHelium3
  let yHe4 := phys.Rapidity (track.pt * 2) track.eta track.phi phys.MassAlpha
  decide (yProton < cfg.yMin) || decide (yProton > cfg.yMax)
    || decide (yDeuteron < cfg.yMin) || decide (yDeuteron > cfg.yMax)
    || decide (yTriton < cfg.yMin) || decide (yTriton > cfg.yMax)
    || decide (yHe3 < cfg.yMin) || decide (yHe3 > cfg.yMax)
    || decide (yHe4 < cfg.yMin) || decide (yHe4 > cfg.yMax)

/-- The fills of one species registry for a track inside the n-sigma window (for the proton
lines 393-409). `scale` is 1 for p, d, t; for the helium species the momenta are doubled
(`track.pt() * 2.0`), `scale` is 2. -/
def speciesFills (reg : Registry) (scale tofNSigma : ℚ) (track : Track) : List Fill :=
  [⟨reg, .histDcaVsPtData, [track.pt * scale, track.dcaXY]⟩,
    ⟨reg, .histDcaZVsPtData, [track.pt * scale, track.dcaZ]⟩,
    ⟨reg, .histTpcSignalData, [track.tpcInnerParam * scale, track.tpcSignal]⟩,
    ⟨reg, .histNClusterTPC, [track.pt * scale, track.tpcNClsFound]⟩,
    ⟨reg, .histNClusterITS, [track.pt * scale, track.itsNCls]⟩,
    ⟨reg, .histChi2TPC, [track.pt * scale, track.tpcChi2NCl]⟩,
    ⟨reg, .histChi2ITS, [track.pt * scale, track.itsChi2NCl]⟩]
  ++ (if track.hasTOF then
        [⟨reg, .histTOFm2, [track.tpcInnerParam * scale, track.mass * track.mass]⟩,
          ⟨reg, .histTofSignalData, [track.tpcInnerParam * scale, track.beta]⟩,
          ⟨reg, .histTofNsigmaData, [track.pt * scale, tofNSigma]⟩]
      else [])

/-- The result of one "check offline-trigger (skimming) condition" block. -/
structure SkimResult where
  keepEvent : Bool
  keepEvent_anti : Bool
  fills : List Fill

/-- One "check offline-trigger (skimming) condition" block (proton: lines 388-438; the blocks of
the five species differ in the registries, the flags, the n-sigma columns and the factor 2.0
only). `keepEvent`, `keepEvent_anti` and `fills` are the values before the block. -/
def skimCondition (cfg : Configurables) (track : Track) (reg areg : Registry)
    (scale nSigma tofNSigma : ℚ) (keepEvent keepEvent_anti : Bool) (fills : List Fill) :
    SkimResult :=
  if nSigma > cfg.nsigmacutLow ∧ nSigma < cfg.nsigmacutHigh then
    { keepEvent := if track.sign > 0 then true else keepEvent
      keepEvent_anti := if track.sign < 0 then true else keepEvent_anti
      fills := fills
        ++ (if track.sign > 0 then speciesFills reg scale tofNSigma track else [])
        ++ (if track.sign < 0 then speciesFills areg scale tofNSigma track else [])
        ++ (if track.hasTOF then
              [⟨.spectra, .histTofSignalData,
                [track.tpcInnerParam * scale * track.sign, track.beta]⟩]
            else []) }
  else
    { keepEvent := keepEvent, keepEvent_anti := keepEvent_anti, fills := fills }

/-- The fills of lines 348-384: the QA histograms of `spectra` and the n-sigma histograms of the
five species of the track's charge sign. -/
def qaFills (track : Track) : List Fill :=
  [⟨.spectra, .histTpcSignalData, [track.tpcInnerParam * track.sign, track.tpcSignal]⟩,
    ⟨.spectra, .histNClusterTPC, [track.pt, track.tpcNClsCrossedRows]⟩,
    ⟨.spectra, .histNClusterITS, [track.pt, track.itsNCls]⟩,
    ⟨.spectra, .histChi2TPC, [track.pt, track.tpcChi2NCl]⟩,
    ⟨.spectra, .histChi2ITS, [track.pt, track.itsChi2NCl]⟩]
  ++ (if track.sign > 0 then
        [⟨.proton_erg, .histTpcNsigmaData, [track.pt, track.tpcNSigmaPr]⟩,
          ⟨.deuteron_reg, .histTpcNsigmaData, [track.pt, track.tpcNSigmaDe]⟩,
          ⟨.triton_reg, .histTpcNsigmaData, [track.pt, track.tpcNSigmaTr]⟩,
          ⟨.Helium3_reg, .histTpcNsigmaData, [track.pt * 2, track.tpcNSigmaHe]⟩,
          ⟨.Helium4_reg, .histTpcNsigmaData, [track.pt * 2, track.tpcNSigmaAl]⟩]
        ++ (if track.hasTOF then
              [⟨.spectra, .histTOFm2, [track.tpcInnerParam, track.mass * track.mass]⟩]
            else [])
      else [])
  ++ (if track.sign < 0 then
        [⟨.aproton_erg, .histTpcNsigmaData, [track.pt, track.tpcNSigmaPr]⟩,
          ⟨.adeuteron_reg, .histTpcNsigmaData, [track.pt, track.tpcNSigmaDe]⟩,
          ⟨.atriton_reg, .histTpcNsigmaData, [track.pt, track.tpcNSigmaTr]⟩,
          ⟨.aHelium3_reg, .histTpcNsigmaData, [track.pt * 2, track.tpcNSigmaHe]⟩,
          ⟨.aHelium4_reg, .histTpcNsigmaData, [track.pt * 2, track.tpcNSigmaAl]⟩]
        ++ (if track.hasTOF then
              [⟨.spectra, .histTOFm2, [track.tpcInnerParam, track.mass * track.mass]⟩]
            else [])
      else [])

/-- The fills of lines 306-314, made before the DCA cut. -/
def dcaFills (track : Track) : List Fill :=
  (if track.sign > 0 then
      [⟨.spectra, .histDcaVsPtData_particle, [track.pt, track.dcaXY]⟩,
        ⟨.spectra, .histDcaZVsPtData_particle, [track.pt, track.dcaZ]⟩]
    else [])
  ++ (if track.sign < 0 then
        [⟨.spectra, .histDcaVsPtData_antiparticle, [track.pt, track.dcaXY]⟩,
          ⟨.spectra, .histDcaZVsPtData_antiparticle, [track.pt, track.dcaZ]⟩]
      else [])

/-- The body of the loop over the tracks, lines 294-650; a `continue` leaves with the state
reached so far. -/
def trackLoopBody (cfg : Configurables) (phys : Physics) (s : LoopState) (track : Track) :
    LoopState :=
  if failsTrackCuts cfg track then s
  else
    let s := { s with fills := s.fills ++ dcaFills track }
    if failsDCACuts cfg track then s
    else if failsRapidityCut cfg phys track then s
    else
      let s := { s with fills := s.fills ++ qaFills track }
      let p := skimCondition cfg track .proton_erg .aproton_erg 1 track.tpcNSigmaPr
        track.tofNSigmaPr s.keepEvent_p s.keepEvent_antip s.fills
      let s := { s with
        keepEvent_p := p.keepEvent, keepEvent_antip := p.keepEvent_anti, fills := p.fills }
      let d := skimCondition cfg track .deuteron_reg .adeuteron_reg 1 track.tpcNSigmaDe
        track.tofNSigmaDe s.keepEvent_d s.keepEvent_antid s.fills
      let s := { s with
        keepEvent_d := d.keepEvent, keepEvent_antid := d.keepEvent_anti, fills := d.fills }
      let t := skimCondition cfg track .triton_reg .atriton_reg 1 track.tpcNSigmaTr
        track.tofNSigmaTr s.keepEvent_t s.keepEvent_antit s.fills
      let s := { s with
        keepEvent_t := t.keepEvent, keepEvent_antit := t.keepEvent_anti, fills := t.fills }
      let he3 := skimCondition cfg track .Helium3_reg .aHelium3_reg 2 track.tpcNSigmaHe
        track.tofNSigmaHe s.keepEvent_He3 s.keepEvent_antiHe3 s.fills
      let s := { s with
        keepEvent_He3 := he3.keepEvent, keepEvent_antiHe3 := he3.keepEvent_anti
        fills := he3.fills }
      let he4 := skimCondition cfg track .Helium4_reg .aHelium4_reg 2 track.tpcNSigmaAl
        track.tofNSigmaAl s.keepEvent_He4 s.keepEvent_antiHe4 s.fills
      { s with
        keepEvent_He4 := he4.keepEvent, keepEvent_antiHe4 := he4.keepEvent_anti
        fills := he4.fills }

/-- The value a `bool` fills a histogram with. -/
def boolValue (b : Bool) : ℚ := if b then 1 else 0

/-- The fills of lines 653-662, "fill trigger (skimming) results". -/
def keepEventFills (s : LoopState) : List Fill :=
  [⟨.proton_erg, .histKeepEventData, [boolValue s.keepEvent_p]⟩,
    ⟨.aproton_erg, .histKeepEventData, [boolValue s.keepEvent_antip]⟩,
    ⟨.deuteron_reg, .histKeepEventData, [boolValue s.keepEvent_d]⟩,
    ⟨.adeuteron_reg, .histKeepEventData, [boolValue s.keepEvent_antid]⟩,
    ⟨.triton_reg, .histKeepEventData, [boolValue s.keepEvent_t]⟩,
    ⟨.atriton_reg, .histKeepEventData, [boolValue s.keepEvent_antit]⟩,
    ⟨.Helium3_reg, .histKeepEventData, [boolValue s.keepEvent_He3]⟩,
    ⟨.aHelium3_reg, .histKeepEventData, [boolValue s.keepEvent_antiHe3]⟩,
    ⟨.Helium4_reg, .histKeepEventData, [boolValue s.keepEvent_He4]⟩,
    ⟨.aHelium4_reg, .histKeepEventData, [boolValue s.keepEvent_antiHe4]⟩]

/-- The method `NucleiHistTask::fillHistograms(event, tracks)`, lines 275-663: the fills it
makes for one event, in order. `posZ` is `event.posZ()`. -/
def fillHistograms (cfg : Configurables) (phys : Physics) (posZ : ℚ) (tracks : List Track) :
    List Fill :=
  let s : LoopState := { fills := [⟨.spectra, .histRecVtxZData, [posZ]⟩] }
  let s := tracks.foldl (trackLoopBody cfg phys) s
  s.fills ++ keepEventFills s

/-! ### The keep-event condition in the spec's words

These definitions are not taken from the code: they state which tracks make an event be kept,
and the theorems compare the code with them. -/

/-- The species whose events are skimmed, with the registry of each. -/
inductive Species where
  | p | antip | d | antid | t | antit | He3 | antiHe3 | He4 | antiHe4
deriving DecidableEq, Repr

/-- The registry of a species. -/
def Species.registry : Species → Registry
  | .p => .proton_erg | .antip => .aproton_erg
  | .d => .deuteron_reg | .antid => .adeuteron_reg
  | .t => .triton_reg | .antit => .atriton_reg
  | .He3 => .Helium3_reg | .antiHe3 => .aHelium3_reg
  | .He4 => .Helium4_reg | .antiHe4 => .aHelium4_reg

/-- The species is an antiparticle. -/
def Species.isAnti : Species → Bool
  | .antip | .antid | .antit | .antiHe3 | .antiHe4 => true
  | _ => false

/-- The TPC n-sigma of a track for the species. -/
def Species.tpcNSigma : Species → Track → ℚ
  | .p, track | .antip, track => track.tpcNSigmaPr
  | .d, track | .antid, track => track.tpcNSigmaDe
  | .t, track | .antit, track => track.tpcNSigmaTr
  | .He3, track | .antiHe3, track => track.tpcNSigmaHe
  | .He4, track | .antiHe4, track => track.tpcNSigmaAl

/-- The track passes the track-quality cuts: every threshold is met, a value equal to a threshold
passes. -/
def passesTrackQuality (cfg : Configurables) (track : Track) : Prop :=
  cfg.minTPCnClsFound ≤ track.tpcNClsFound
    ∧ cfg.minNCrossedRowsTPC ≤ track.tpcNClsCrossedRows
    ∧ cfg.minRatioCrossedRowsTPC ≤ track.tpcCrossedRowsOverFindableCls
    ∧ track.tpcCrossedRowsOverFindableCls ≤ cfg.maxRatioCrossedRowsTPC
    ∧ track.tpcChi2NCl ≤ cfg.maxChi2TPC
    ∧ track.itsChi2NCl ≤ cfg.maxChi2ITS
    ∧ track.passedTPCRefit = true
    ∧ track.passedITSRefit = true
    ∧ cfg.minReqClusterITS ≤ track.itsNCls
    ∧ track.isPVContributor = true

/-- The track passes the DCA cuts. -/
def passesDCA (cfg : Configurables) (track : Track) : Prop :=
  |track.dcaXY| ≤ cfg.maxDCA_XY ∧ |track.dcaZ| ≤ cfg.maxDCA_Z

/-- The track passes the rapidity cuts: under each of the five mass hypotheses its rapidity lies
in `[yMin, yMax]`. -/
def passesRapidity (cfg : Configurables) (phys : Physics) (track : Track) : Prop :=
  (cfg.yMin ≤ phys.Rapidity track.pt track.eta track.phi phys.MassProton
      ∧ phys.Rapidity track.pt track.eta track.phi phys.MassProton ≤ cfg.yMax)
    ∧ (cfg.yMin ≤ phys.Rapidity track.pt track.eta track.phi phys.MassDeuteron
      ∧ phys.Rapidity track.pt track.eta track.phi phys.MassDeuteron ≤ cfg.yMax)
    ∧ (cfg.yMin ≤ phys.Rapidity track.pt track.eta track.phi phys.MassTriton
      ∧ phys.Rapidity track.pt track.eta track.phi phys.MassTriton ≤ cfg.yMax)
    ∧ (cfg.yMin ≤ phys.Rapidity (track.pt * 2) track.eta track.phi phys.MassHelium3
      ∧ phys.Rapidity (track.pt * 2) track.eta track.phi phys.MassHelium3 ≤ cfg.yMax)
    ∧ (cfg.yMin ≤ phys.Rapidity (track.pt * 2) track.eta track.phi phys.MassAlpha
      ∧ phys.Rapidity (track.pt * 2) track.eta track.phi phys.MassAlpha ≤ cfg.yMax)

/-- The track makes the event be kept for the species: it passes the track-quality, DCA and
rapidity cuts, has the charge sign of the species, and its TPC n-sigma for the species lies
strictly between `nsigmacutLow` and `nsigmacutHigh`. -/
def keepsEvent (cfg : Configurables) (phys : Physics) (sp : Species) (track : Track) : Prop :=
  passesTrackQuality cfg track ∧ passesDCA cfg track ∧ passesRapidity cfg phys track
    ∧ (if sp.isAnti then track.sign < 0 else track.sign > 0)
    ∧ cfg.nsigmacutLow < sp.tpcNSigma track ∧ sp.tpcNSigma track < cfg.nsigmacutHigh

/-- The `keepEvent` flag of a species. -/
def LoopState.keepEvent (s : LoopState) : Species → Bool
  | .p => s.keepEvent_p | .antip => s.keepEvent_antip
  | .d => s.keepEvent_d | .antid => s.keepEvent_antid
  | .t => s.keepEvent_t | .antit => s.keepEvent_antit
  | .He3 => s.keepEvent_He3 | .antiHe3 => s.keepEvent_antiHe3
  | .He4 => s.keepEvent_He4 | .antiHe4 => s.keepEvent_antiHe4

/-- The fill goes to the histogram `histKeepEventData` of the registry. -/
def Fill.isKeepEventOf (reg : Registry) (f : Fill) : Bool :=
  decide (f.registry = reg) && decide (f.hist = Hist.histKeepEventData)

end NucleiHistTask

/-! ## DPG/Tasks/AOTTrack/qaMatchEff.cxx -/

namespace QaMatchEff

/-- The configurables of the task that `init` reads (lines 39-62, 95), with their default
values, and the six process switches (lines 856-906). -/
structure Configurables where
  b_useTrackSelections : Bool := false
  ptMinCutInnerWallTPC : ℚ := 1 / 10
  ptMinCut : ℚ := 1 / 10
  ptMaxCut : ℚ := 100
  etaMinCut : ℚ := -2
  etaMaxCut : ℚ := 2
  dcaXYMaxCut : ℚ := 1000000
  b_useTPCinnerWallPt : Bool := false
  tpcNClusterMin : Int := 0
  tpcNCrossedRowsMin : Int := 70
  tpcNCrossedRowsOverFindableClstMin : ℚ := 8 / 10
  tpcChi2Max : ℚ := 4
  itsChi2Max : ℚ := 36
  customITShitmap : Int := 3
  customMinITShits : Int := 1
  isTRDThere : Int := 2
  isitMC : Bool := false
  doDebug : Bool := false
  makethn : Bool := false
  doprocessMC : Bool := false
  doprocessTrkIUMC : Bool := false
  doprocessMCNoColl : Bool := false
  doprocessData : Bool := true
  doprocessTrkIUData : Bool := false
  doprocessDataNoColl : Bool := true

/-- The member `cutObject`, of the class `TrackSelection` that is declared outside the
repository: a field holds the arguments of the last call of the setter of the same name, `none`
while the setter has not been called. The `std::set<uint8_t>` of ITS layers is the list of its
elements in increasing order. -/
structure TrackSelection where
  EtaRange : Option (ℚ × ℚ) := none
  PtRange : Option (ℚ × ℚ) := none
  MaxDcaXY : Option ℚ := none
  MinNClustersTPC : Option Int := none
  MinNCrossedRowsTPC : Option Int := none
  MinNCrossedRowsOverFindableClustersTPC : Option ℚ := none
  MaxChi2PerClusterTPC : Option ℚ := none
  MaxChi2PerClusterITS : Option ℚ := none
  RequireHitsInITSLayers : Option (Int × List Nat) := none
deriving DecidableEq

/-- The method `initData`, lines 183-227: the names of the histograms it adds to the registry,
in order. -/
def initData (cfg : Configurables) : List String :=
  (if cfg.makethn then ["data/thnsforfrac"] else [])
    ++ [
      "data/itsHitsMatched", "data/pthist_tpc", "data/etahist_tpc", "data/phihist_tpc",
      "data/pthist_tpcits", "data/etahist_tpcits", "data/phihist_tpcits", "data/pthist_tpc_pos",
      "data/etahist_tpc_pos", "data/phihist_tpc_pos", "data/pthist_tpcits_pos",
      "data/etahist_tpcits_pos", "data/phihist_tpcits_pos", "data/pthist_tpc_neg",
      "data/etahist_tpc_neg", "data/phihist_tpc_neg", "data/pthist_tpcits_neg",
      "data/etahist_tpcits_neg", "data/phihist_tpcits_neg", "data/pthist_tpc_05",
      "data/etahist_tpc_05", "data/phihist_tpc_05", "data/pthist_tpcits_05",
      "data/etahist_tpcits_05", "data/phihist_tpcits_05"]

/-- The method `initMC`, lines 229-366: the names of the histograms it adds to the registry,
in order. -/
def initMC (cfg : Configurables) : List String :=
  (if cfg.makethn then ["MC/thnsforfrac"] else [])
    ++ [
      "MC/itsHitsMatched", "MC/pthist_tpc", "MC/etahist_tpc", "MC/phihist_tpc",
      "MC/pthist_tpcits", "MC/etahist_tpcits", "MC/phihist_tpcits", "MC/pthist_tpc_pos",
      "MC/etahist_tpc_pos", "MC/phihist_tpc_pos", "MC/pthist_tpcits_pos", "MC/etahist_tpcits_pos",
      "MC/phihist_tpcits_pos", "MC/pthist_tpc_neg", "MC/etahist_tpc_neg", "MC/phihist_tpc_neg",
      "MC/pthist_tpcits_neg", "MC/etahist_tpcits_neg", "MC/phihist_tpcits_neg",
      "MC/pthist_tpc_prim", "MC/etahist_tpc_prim", "MC/phihist_tpc_prim", "MC/pthist_tpcits_prim",
      "MC/etahist_tpcits_prim", "MC/phihist_tpcits_prim", "MC/pthist_tpc_secd",
      "MC/etahist_tpc_secd", "MC/phihist_tpc_secd", "MC/pthist_tpcits_secd",
      "MC/etahist_tpcits_secd", "MC/phihist_tpcits_secd", "MC/pthist_tpc_secm",
      "MC/etahist_tpc_secm", "MC/phihist_tpc_secm", "MC/pthist_tpcits_secm",
      "MC/etahist_tpcits_secm", "MC/phihist_tpcits_secm", "MC/pthist_tpc_pi", "MC/etahist_tpc_pi",
      "MC/phihist_tpc_pi", "MC/pthist_tpcits_pi", "MC/etahist_tpcits_pi", "MC/phihist_tpcits_pi",
      "MC/pthist_tpc_pi_prim", "MC/etahist_tpc_pi_prim", "MC/phihist_tpc_pi_prim",
      "MC/pthist_tpcits_pi_prim", "MC/etahist_tpcits_pi_prim", "MC/phihist_tpcits_pi_prim",
      "MC/pthist_tpc_pi_secd", "MC/etahist_tpc_pi_secd", "MC/phihist_tpc_pi_secd",
      "MC/pthist_tpcits_pi_secd", "MC/etahist_tpcits_pi_secd", "MC/phihist_tpcits_pi_secd",
      "MC/pthist_tpc_pi_secm", "MC/etahist_tpc_pi_secm", "MC/phihist_tpc_pi_secm",
      "MC/pthist_tpcits_pi_secm", "MC/etahist_tpcits_pi_secm", "MC/phihist_tpcits_pi_secm",
      "MC/pthist_tpc_P", "MC/etahist_tpc_P", "MC/phihist_tpc_P", "MC/pthist_tpcits_P",
      "MC/etahist_tpcits_P", "MC/phihist_tpcits_P", "MC/pthist_tpc_K", "MC/etahist_tpc_K",
      "MC/phihist_tpc_K", "MC/pthist_tpcits_K", "MC/etahist_tpcits_K", "MC/phihist_tpcits_K",
      "MC/pthist_tpc_piK", "MC/etahist_tpc_piK", "MC/phihist_tpc_piK", "MC/pthist_tpcits_piK",
      "MC/etahist_tpcits_piK", "MC/phihist_tpcits_piK", "MC/pthist_tpc_05", "MC/etahist_tpc_05",
      "MC/phihist_tpc_05", "MC/pthist_tpcits_05", "MC/etahist_tpcits_05", "MC/phihist_tpcits_05",
      "MC/pthist_tpc_nopi", "MC/etahist_tpc_nopi", "MC/phihist_tpc_nopi", "MC/pthist_tpcits_nopi",
      "MC/etahist_tpcits_nopi", "MC/phihist_tpcits_nopi", "MC/etahist_diff", "MC/phihist_diff",
      "MC/pdghist_num", "MC/pdghist_den"]

/-- Lines 162-167 of `init`: layer `index_ITSlayer` (0 to 6) is inserted into the set when
`(customITShitmap & (1 << index_ITSlayer)) > 0`. The layers are tried in increasing order, so an
inserted layer goes to the end of the list. -/
def set_customITShitmap (cfg : Configurables) : List Nat :=
  (List.range 7).foldl
    (fun set index_ITSlayer =>
      if Int.land cfg.customITShitmap ((1 <<< index_ITSlayer : Nat) : Int) > 0 then
        set ++ [index_ITSlayer]
      else set)
    []

/-- What `init` leaves behind when it completes: the histograms booked and the track
selection object. -/
structure InitState where
  histos : List String
  cutObject : TrackSelection
deriving DecidableEq

/-- The method `qaMatchEff::init`, lines 119-178. `LOGF(fatal, ...)` ends the job with the
message (`Except.error`); otherwise the state after `init`. -/
def init (cfg : Configurables) : Except String InitState :=
  let histos := if cfg.isitMC then initMC cfg else initData cfg
  if (!cfg.isitMC && (cfg.doprocessMC || cfg.doprocessMCNoColl || cfg.doprocessTrkIUMC))
      || (cfg.isitMC && (cfg.doprocessData && cfg.doprocessDataNoColl && cfg.doprocessTrkIUMC))
  then
    .error ("Initialization set for MC and processData function flagged "
      ++ "(or viceversa)! Fix the configuration.")
  else if (cfg.doprocessMC && cfg.doprocessMCNoColl && cfg.doprocessTrkIUMC)
      || (cfg.doprocessData && cfg.doprocessDataNoColl && cfg.doprocessTrkIUData)
  then
    .error ("Cannot process for both without collision tag and with "
      ++ "collision tag at the same time! Fix the configuration.")
  else if cfg.doprocessTrkIUMC && cfg.makethn then
    .error "No DCA for IU tracks. Put makethn = false."
  else if cfg.doprocessTrkIUData && cfg.makethn then
    .error "No DCA for IU tracks. Put makethn = false."
  else if cfg.b_useTrackSelections then
    .ok
      { histos := histos
        cutObject :=
          { EtaRange := some (cfg.etaMinCut, cfg.etaMaxCut)
            PtRange := some (cfg.ptMinCut, cfg.ptMaxCut)
            MaxDcaXY := some cfg.dcaXYMaxCut
            MinNClustersTPC := some cfg.tpcNClusterMin
            MinNCrossedRowsTPC := some cfg.tpcNCrossedRowsMin
            MinNCrossedRowsOverFindableClustersTPC := some cfg.tpcNCrossedRowsOverFindableClstMin
            MaxChi2PerClusterTPC := some cfg.tpcChi2Max
            MaxChi2PerClusterITS := some cfg.itsChi2Max
            RequireHitsInITSLayers := some (cfg.customMinITShits, set_customITShitmap cfg) } }
  else
    .ok { histos := histos, cutObject := {} }

/-- The message of the first fatal check of `init`. -/
def msgModeMismatch : String :=
  "Initialization set for MC and processData function flagged "
    ++ "(or viceversa)! Fix the configuration."

/-- The message of the second fatal check of `init`. -/
def msgBothCollisionTags : String :=
  "Cannot process for both without collision tag and with "
    ++ "collision tag at the same time! Fix the configuration."

end QaMatchEff

/-! ### qaMatchEff: the track selections and `fillHistograms` -/

namespace QaMatchEff

/-- The values of `TrackSelection::TrackCuts` that the task uses. -/
inductive TrackCuts where
  | kPtRange
  | kEtaRange
  | kDCAxy
  | kTPCNCls
  | kTPCCrossedRows
  | kTPCCrossedRowsOverNCls
  | kTPCChi2NDF
  | kITSChi2NDF
  | kITSHits
deriving DecidableEq, Repr

/-- The columns of an MC particle that `fillHistograms` reads. `pdgCode` and `getProcess` are
`int`s. -/
structure McParticle where
  pdgCode : Int
  isPhysicalPrimary : Bool
  getProcess : Int
  eta : ℚ
  phi : ℚ

/-- The columns of a track that `fillHistograms` reads. `mcParticle` is the particle of the MC
label, `none` when `has_mcParticle()` is false; `itsClusterMap` is a `uint8_t`. -/
structure Track where
  hasTRD : Bool
  mcParticle : Option McParticle
  pt : ℚ
  tpcInnerParam : ℚ
  tgl : ℚ
  dcaXY : ℚ
  phi : ℚ
  eta : ℚ
  signed1Pt : ℚ
  hasTPC : Bool
  hasITS : Bool
  itsClusterMap : Nat

/-- What the task takes from outside the repository: the method `TrackSelection::IsSelected` of
the cut object, `sqrt`, and the constants `PI` and `TwoPI`. -/
structure Externals where
  IsSelected : TrackSelection → Track → TrackCuts → Bool
  sqrt : ℚ → ℚ
  PI : ℚ
  TwoPI : ℚ

/-- One call `histos.fill(HIST(hist), values...)` or `histos.get<TH1>(HIST(hist))->Fill(value)`. -/
structure Fill where
  hist : String
  values : List ℚ
deriving DecidableEq

/-- The method `computePtInParamTPC`, lines 369-376. -/
def computePtInParamTPC (ext : Externals) (track : Track) : ℚ :=
  track.tpcInnerParam / ext.sqrt (1 + track.tgl * track.tgl)

/-- The method `isTrackSelectedKineCuts`, lines 379-398. -/
def isTrackSelectedKineCuts (cfg : Configurables) (ext : Externals) (cutObject : TrackSelection)
    (track : Track) : Bool :=
  if !cfg.b_useTrackSelections then true
  else if !ext.IsSelected cutObject track .kPtRange then false
  else if cfg.b_useTPCinnerWallPt
      && decide (computePtInParamTPC ext track < cfg.ptMinCutInnerWallTPC) then false
  else if !ext.IsSelected cutObject track .kEtaRange then false
  else if !ext.IsSelected cutObject track .kDCAxy then false
  else true

/-- The method `isTrackSelectedTPCCuts`, lines 400-414. -/
def isTrackSelectedTPCCuts (cfg : Configurables) (ext : Externals) (cutObject : TrackSelection)
    (track : Track) : Bool :=
  if !cfg.b_useTrackSelections then true
  else if !ext.IsSelected cutObject track .kTPCNCls then false
  else if !ext.IsSelected cutObject track .kTPCCrossedRows then false
  else if !ext.IsSelected cutObject track .kTPCCrossedRowsOverNCls then false
  else if !ext.IsSelected cutObject track .kTPCChi2NDF then false
  else true

/-- The method `isTrackSelectedITSCuts`, lines 416-426. -/
def isTrackSelectedITSCuts (cfg : Configurables) (ext : Externals) (cutObject : TrackSelection)
    (track : Track) : Bool :=
  if !cfg.b_useTrackSelections then true
  else if !ext.IsSelected cutObject track .kITSChi2NDF then false
  else if !ext.IsSelected cutObject track .kITSHits then false
  else true

/-- The member `pdgChoice`, line 91. -/
def pdgChoice : List Int :=
  [211, 213, 215, 217, 219, 221, 223, 321, 411, 521, 2212, 1114, 2214]

/-- The function `TMath::Abs(Int_t)` of ROOT on 32-bit `int`s: the absolute value, except that
the negation of the smallest `int`, -2147483648, wraps to the smallest `int` itself. A PDG code
is an `int`, so no other argument leaves the 32-bit range. -/
def TMath.Abs (d : Int) : Int :=
  if d = -2147483648 then -2147483648 else |d|

/-- Lines 496-503: the type of an MC particle for the THnSparse. -/
def sayPrim (mcpart : McParticle) : Int :=
  if mcpart.isPhysicalPrimary then 0
  else if mcpart.getProcess == 4 then 1
  else 2

/-- Line 504: `signPDGCode = siPDGCode / tpPDGCode`, the quotient of two `int`s, rounded towards
zero. A zero divisor is undefined behaviour, the result `none`: from there on the language gives
the program no result, whatever a given build does. The division stands in the code before the
test of `makethn` and is evaluated whether or not its value is filled later. -/
def signPDGCode (siPDGCode tpPDGCode : Int) : Option Int :=
  if tpPDGCode = 0 then none else some (Int.tdiv siPDGCode tpPDGCode)

/-- Lines 505-520: the `switch` on `tpPDGCode`. -/
def specind (tpPDGCode : Int) : Int :=
  if tpPDGCode = 11 then 1
  else if tpPDGCode = 211 then 2
  else if tpPDGCode = 321 then 3
  else if tpPDGCode = 2212 then 4
  else 5

/-- Three fills that always come together: `trackPt`, `track.phi()` and `track.eta()` go to
the histograms `pthist`, `phihist` and `etahist` of directory `dir`, tag `kind` ("tpc" or
"tpcits") and the given suffix, in this order. -/
def ptPhiEta (dir kind suffix : String) (trackPt : ℚ) (track : Track) : List Fill :=
  [⟨dir ++ "/pthist_" ++ kind ++ suffix, [trackPt]⟩,
    ⟨dir ++ "/phihist_" ++ kind ++ suffix, [track.phi]⟩,
    ⟨dir ++ "/etahist_" ++ kind ++ suffix, [track.eta]⟩]

/-- The block repeated for every category (e.g. lines 670-679):
`if (track.hasTPC() && isTrackSelectedTPCCuts(track)) { three fills, tag tpc;
if (track.hasITS() && isTrackSelectedITSCuts(track)) { three fills, tag tpcits } }`.
`tpcTag` and `itsTag` are the values of the two conditions; `extraTPC` and `extraITS` are the
fills that follow the three of a tag, where there are any. -/
def tpcItsFills (tpcTag itsTag : Bool) (dir suffixTPC suffixITS : String) (trackPt : ℚ)
    (track : Track) (extraTPC extraITS : List Fill) : List Fill :=
  if tpcTag then
    ptPhiEta dir "tpc" suffixTPC trackPt track ++ extraTPC
      ++ (if itsTag then ptPhiEta dir "tpcits" suffixITS trackPt track ++ extraITS else [])
  else []

/-- Lines 557-581, the control plot: `itsNhits` counts the layers 0 to 6 whose bit is set in
`itsClusterMap`; every such layer fills `(layer, itsNhits)`, and a track without any fills
`(-1, itsNhits)`. -/
def itsHitsMatchedFills (dir : String) (track : Track) : List Fill :=
  let layers := (List.range 7).filter (fun i => track.itsClusterMap &&& (1 <<< i) != 0)
  let itsNhits : ℚ := layers.length
  layers.map (fun i => (⟨dir ++ "/itsHitsMatched", [(i : ℚ), itsNhits]⟩ : Fill))
    ++ (if layers.isEmpty then [⟨dir ++ "/itsHitsMatched", [-1, itsNhits]⟩] else [])

/-- Lines 534-663: the fills for all tracks, for the tracks with `trackPt > 0.5`, for the
positive and for the negative ones. -/
def commonFills (dir : String) (tpcTag itsTag : Bool) (trackPt : ℚ) (track : Track) :
    List Fill :=
  tpcItsFills tpcTag itsTag dir "" "" trackPt track [] (itsHitsMatchedFills dir track)
    ++ (if trackPt > 1 / 2 then tpcItsFills tpcTag itsTag dir "_05" "_05" trackPt track [] []
        else [])
    ++ (if track.signed1Pt > 0 then
          tpcItsFills tpcTag itsTag dir "_pos" "_pos" trackPt track [] []
        else [])
    ++ (if track.signed1Pt < 0 then
          tpcItsFills tpcTag itsTag dir "_neg" "_neg" trackPt track [] []
        else [])

/-- Lines 786-792: the bin of `MC/pdghist_den` and `MC/pdghist_num`. -/
def pdg_fill (tpPDGCode : Int) : ℚ :=
  match pdgChoice.indexOf? tpPDGCode with
  | some index => (index : ℚ) + 3 / 2
  | none => -10

/-- Lines 665-835: the fills of the MC categories. -/
def mcFills (mcpart : McParticle) (tpPDGCode : Int) (tpcTag itsTag : Bool) (trackPt : ℚ)
    (track : Track) : List Fill :=
  (if mcpart.isPhysicalPrimary then
      tpcItsFills tpcTag itsTag "MC" "_prim" "_prim" trackPt track [] []
    else if mcpart.getProcess == 4 then
      tpcItsFills tpcTag itsTag "MC" "_secd" "_secd" trackPt track [] []
    else
      tpcItsFills tpcTag itsTag "MC" "_secm" "_secm" trackPt track [] [])
  ++ (if tpPDGCode == 2212 then tpcItsFills tpcTag itsTag "MC" "_P" "_P" trackPt track [] []
      else [])
  ++ (if tpPDGCode == 211 then
        tpcItsFills tpcTag itsTag "MC" "_pi" "_pi" trackPt track [] []
          ++ (if mcpart.isPhysicalPrimary then
                tpcItsFills tpcTag itsTag "MC" "_pi_prim" "_pi_prim" trackPt track [] []
              else if mcpart.getProcess == 4 then
                tpcItsFills tpcTag itsTag "MC" "_pi_secd" "_pi_secd" trackPt track [] []
              else
                tpcItsFills tpcTag itsTag "MC" "_pi_secm" "_pi_secd" trackPt track [] [])
      else [])
  ++ (if !(tpPDGCode == 211 && mcpart.isPhysicalPrimary) then
        tpcItsFills tpcTag itsTag "MC" "_nopi" "_nopi" trackPt track
          [⟨"MC/pdghist_den", [pdg_fill tpPDGCode]⟩] [⟨"MC/pdghist_num", [pdg_fill tpPDGCode]⟩]
      else [])
  ++ (if tpPDGCode == 321 then tpcItsFills tpcTag itsTag "MC" "_K" "_K" trackPt track [] []
      else [])
  ++ (if tpPDGCode == 211 || tpPDGCode == 321 then
        tpcItsFills tpcTag itsTag "MC" "_piK" "_piK" trackPt track [] []
      else [])

/-- Lines 483-493: the differences between MC truth and track, filled for physical
primaries. -/
def diffFills (ext : Externals) (mcpart : McParticle) (track : Track) : List Fill :=
  if mcpart.isPhysicalPrimary then
    let delta := mcpart.phi - track.phi
    let delta := if delta > ext.PI then delta - ext.TwoPI else delta
    let delta := if delta < -ext.PI then delta + ext.TwoPI else delta
    [⟨"MC/etahist_diff", [mcpart.eta - track.eta]⟩, ⟨"MC/phihist_diff", [delta]⟩]
  else []

/-- The members of the task that `fillHistograms` changes: the counters `countData` and
`countNoMC`, and the fills made so far. The members `siPDGCode`, `tpPDGCode` and `pdg_fill` are
written before they are read in every iteration that reads them, and are local here. -/
structure LoopState where
  countData : Int := 0
  countNoMC : Int := 0
  fills : List Fill := []

/-- The fills of one track that has passed the TRD requirement, the MC-label requirement and the
kinematic selection (lines 478-835), in order. `mc` is `none` in the instantiation
`IS_MC = false` and the MC particle of the track in the instantiation `IS_MC = true`. The result
is `none` when the division of line 504 has a zero divisor. -/
def selectedTrackFills (cfg : Configurables) (ext : Externals) (cutObject : TrackSelection)
    (mc : Option McParticle) (trackPt : ℚ) (track : Track) : Option (List Fill) :=
  let tpcTag := track.hasTPC && isTrackSelectedTPCCuts cfg ext cutObject track
  let itsTag := track.hasITS && isTrackSelectedITSCuts cfg ext cutObject track
  match mc with
  | none =>
    some ((if cfg.makethn then
            [⟨"data/thnsforfrac",
              [track.dcaXY, trackPt, track.phi, track.eta, (-1 : Int), (-2 : Int), (0 : Int)]⟩]
          else [])
      ++ commonFills "data" tpcTag itsTag trackPt track)
  | some mcpart =>
    let siPDGCode := mcpart.pdgCode
    let tpPDGCode := TMath.Abs siPDGCode
    (signPDGCode siPDGCode tpPDGCode).map fun sign =>
      diffFills ext mcpart track
        ++ (if cfg.makethn then
              [⟨"MC/thnsforfrac",
                [track.dcaXY, trackPt, track.phi, track.eta, (sayPrim mcpart : ℚ), (sign : ℚ),
                  (specind tpPDGCode : ℚ)]⟩]
            else [])
        ++ commonFills "MC" tpcTag itsTag trackPt track
        ++ mcFills mcpart tpPDGCode tpcTag itsTag trackPt track

/-- The body of the loop over the tracks of `fillHistograms<IS_MC>`, lines 446-838; a
`continue` leaves with the state reached so far. The result is `none` when the iteration runs
into the division by zero of line 504. -/
def trackLoopBody (cfg : Configurables) (ext : Externals) (cutObject : TrackSelection)
    (IS_MC : Bool) (s : LoopState) (track : Track) : Option LoopState :=
  if cfg.isTRDThere == 1 && !track.hasTRD then some s
  else if cfg.isTRDThere == 0 && track.hasTRD then some s
  else if IS_MC && !track.mcParticle.isSome then some { s with countNoMC := s.countNoMC + 1 }
  else
    let trackPt := if cfg.b_useTPCinnerWallPt then computePtInParamTPC ext track else track.pt
    if !isTrackSelectedKineCuts cfg ext cutObject track then some s
    else
      let s := { s with countData := s.countData + 1 }
      (selectedTrackFills cfg ext cutObject (if IS_MC then track.mcParticle else none) trackPt
          track).map
        fun fills => { s with fills := s.fills ++ fills }

/-- The method `qaMatchEff::fillHistograms<IS_MC>(tracks, mcParticles)`, lines 440-845: the
state of the task after the loop over the tracks. -/
def fillHistograms (cfg : Configurables) (ext : Externals) (cutObject : TrackSelection)
    (IS_MC : Bool) (s : LoopState) (tracks : List Track) : Option LoopState :=
  tracks.foldlM (trackLoopBody cfg ext cutObject IS_MC) s

/-! ### The requirements on a track in the spec's words

These definitions are not taken from the code: they name the conditions that the claims about
`fillHistograms` speak of, and the theorems compare the code with them. -/

/-- The track is skipped by the TRD requirement: TRD asked for (`isTRDThere = 1`) and the track
has none, or TRD excluded (`isTRDThere = 0`) and the track has it. -/
def skippedByTRD (cfg : Configurables) (track : Track) : Bool :=
  (decide (cfg.isTRDThere = 1) && !track.hasTRD) || (decide (cfg.isTRDThere = 0) && track.hasTRD)

/-- The track is not skipped before the fills: it passes the TRD requirement and the kinematic
selection. -/
def reachesFills (cfg : Configurables) (ext : Externals) (cutObject : TrackSelection)
    (track : Track) : Bool :=
  !skippedByTRD cfg track && isTrackSelectedKineCuts cfg ext cutObject track

/-- The transverse momentum that is filled: the one at the inner wall of the TPC when
`b_useTPCinnerWallPt` is set, else the one of the track. -/
def filledPt (cfg : Configurables) (ext : Externals) (track : Track) : ℚ :=
  if cfg.b_useTPCinnerWallPt then computePtInParamTPC ext track else track.pt

end QaMatchEff
/-! ## Lemmas: checkBCRange -/

namespace CheckBCRange

theorem length_foldl_range_set (p : Nat → Bool) (n : Nat) (found : List Bool) :
    ((List.range n).foldl (fun fnd j => if p j then fnd.set j true else fnd) found).length
      = found.length := by
  induction n with
  | zero => simp
  | succ k ih =>
    rw [List.range_succ, List.foldl_append]
    simp only [List.foldl_cons, List.foldl_nil]
    split
    · rw [List.length_set, ih]
    · exact ih

theorem getD_foldl_range_set (p : Nat → Bool) (n : Nat) (found : List Bool) (i : Nat) :
    ((List.range n).foldl (fun fnd j => if p j then fnd.set j true else fnd) found).getD i false
      = ((decide (i < n) && p i && decide (i < found.length)) || found.getD i false) := by
  induction n with
  | zero => simp
  | succ k ih =>
    rw [List.range_succ, List.foldl_append]
    simp only [List.foldl_cons, List.foldl_nil]
    have hlen := length_foldl_range_set p k found
    split
    · rename_i hp
      rw [List.getD_eq_getElem?_getD, List.getElem?_set]
      by_cases hik : k = i
      · subst hik
        simp only [if_true, hlen, hp]
        by_cases hl : k < found.length
        · simp [hl]
        · simp [hl, List.getElem?_eq_none (Nat.not_lt.mp hl)]
      · simp only [hik, if_false]
        rw [← List.getD_eq_getElem?_getD, ih]
        have : (decide (i < k + 1)) = decide (i < k) := by
          apply decide_eq_decide.mpr
          omega
        rw [this]
    · rename_i hp
      rw [ih]
      by_cases hik : k = i
      · subst hik
        simp [hp]
      · have : (decide (i < k + 1)) = decide (i < k) := by
          apply decide_eq_decide.mpr
          omega
        rw [this]

theorem isOutside_frameOf (r : BCRange) (t : Nat) :
    (frameOf r).isOutside (InteractionRecord.setFromLong t) = false
      ↔ r.fBCstart ≤ t ∧ t ≤ r.fBCend := by
  simp [IRFrame.isOutside, frameOf, InteractionRecord.setFromLong]

theorem length_markFrame (frame : IRFrame) (bcids : List InteractionRecord) (found : List Bool) :
    (markFrame frame bcids found).length = found.length :=
  length_foldl_range_set (fun j => !frame.isOutside (bcids.getD j ⟨0⟩)) bcids.length found

theorem getD_markFrame (frame : IRFrame) (bcids : List InteractionRecord) (found : List Bool)
    (i : Nat) :
    (markFrame frame bcids found).getD i false
      = ((decide (i < bcids.length) && !frame.isOutside (bcids.getD i ⟨0⟩)
          && decide (i < found.length)) || found.getD i false) :=
  getD_foldl_range_set (fun j => !frame.isOutside (bcids.getD j ⟨0⟩)) bcids.length found i

theorem length_foldl_markFrame (ranges : List BCRange) (bcids : List InteractionRecord)
    (found : List Bool) :
    (ranges.foldl (fun fnd r => markFrame (frameOf r) bcids fnd) found).length
      = found.length := by
  induction ranges generalizing found with
  | nil => rfl
  | cons r rest ih => rw [List.foldl_cons, ih, length_markFrame]

theorem getD_foldl_markFrame (ranges : List BCRange) (bcids : List InteractionRecord)
    (found : List Bool) (hlen : found.length = bcids.length) (i : Nat) :
    (ranges.foldl (fun fnd r => markFrame (frameOf r) bcids fnd) found).getD i false
      = ((decide (i < bcids.length)
          && ranges.any (fun r => !(frameOf r).isOutside (bcids.getD i ⟨0⟩)))
          || found.getD i false) := by
  induction ranges generalizing found with
  | nil => simp
  | cons r rest ih =>
    rw [List.foldl_cons, ih _ (by rw [length_markFrame, hlen]), getD_markFrame, hlen]
    simp only [List.any_cons]
    cases decide (i < bcids.length) <;> cases (frameOf r).isOutside (bcids.getD i ⟨0⟩) <;> simp

theorem getD_replicate_false (n i : Nat) : (List.replicate n false).getD i false = false := by
  rw [List.getD_eq_getElem?_getD, List.getElem?_replicate]
  split <;> rfl

theorem length_foundInRanges (ranges : List BCRange) (bcids : List InteractionRecord) :
    (foundInRanges ranges bcids).length = bcids.length := by
  unfold foundInRanges
  rw [length_foldl_markFrame, List.length_replicate]

theorem getD_foundInRanges (ranges : List BCRange) (bcids : List InteractionRecord) (i : Nat) :
    (foundInRanges ranges bcids).getD i false
      = (decide (i < bcids.length)
          && ranges.any (fun r => !(frameOf r).isOutside (bcids.getD i ⟨0⟩))) := by
  unfold foundInRanges
  rw [getD_foldl_markFrame _ _ _ (List.length_replicate _ _), getD_replicate_false]
  simp

theorem scanFrames_eq_any (frames : List IRFrame) (bcid : InteractionRecord) :
    scanFrames frames bcid = frames.any (fun frame => !frame.isOutside bcid) := by
  induction frames with
  | nil => rfl
  | cons frame rest ih =>
    simp only [scanFrames, List.any_cons, ih]
    cases frame.isOutside bcid <;> simp

theorem length_foundInFrames (frames : List IRFrame) (bcids : List InteractionRecord) :
    (foundInFrames frames bcids).length = bcids.length := by
  unfold foundInFrames
  rw [length_foldl_range_set (fun j => scanFrames frames (bcids.getD j ⟨0⟩)),
    List.length_replicate]

theorem getD_foundInFrames (frames : List IRFrame) (bcids : List InteractionRecord) (i : Nat) :
    (foundInFrames frames bcids).getD i false
      = (decide (i < bcids.length)
          && frames.any (fun frame => !frame.isOutside (bcids.getD i ⟨0⟩))) := by
  unfold foundInFrames
  rw [getD_foldl_range_set (fun j => scanFrames frames (bcids.getD j ⟨0⟩)),
    getD_replicate_false, scanFrames_eq_any, List.length_replicate]
  by_cases h : i < bcids.length <;> simp [h]

theorem pushSelected_eq (bcids : List InteractionRecord) (tree : List Decision) :
    pushSelected bcids tree
      = bcids ++ (selectedEntries tree).map
          (fun e => InteractionRecord.setFromLong e.fGlobalBCId) := by
  unfold pushSelected selectedEntries
  induction tree generalizing bcids with
  | nil => simp
  | cons e rest ih =>
    rw [List.foldl_cons, ih]
    by_cases he : e.fCefpSelected = 0
    · simp [he]
    · simp [he]

theorem collectBCs_foldl (file : TFile) (acc : List InteractionRecord) :
    file.foldl
        (fun bcids key =>
          match key.getDecision with
          | none => bcids
          | some treeDecision => pushSelected bcids treeDecision)
        acc
      = acc ++ (selectedEntries (decisionEntries file)).map
          (fun e => InteractionRecord.setFromLong e.fGlobalBCId) := by
  induction file generalizing acc with
  | nil => simp [decisionEntries, selectedEntries]
  | cons k rest ih =>
    rw [List.foldl_cons, ih]
    cases hk : k.getDecision with
    | none => simp [decisionEntries, selectedEntries, hk]
    | some tree =>
      simp only [pushSelected_eq]
      simp [decisionEntries, selectedEntries, hk]

theorem collectBCs_eq (file : TFile) :
    collectBCs file = (selectedEntries (decisionEntries file)).map
      (fun e => InteractionRecord.setFromLong e.fGlobalBCId) := by
  unfold collectBCs
  rw [collectBCs_foldl]
  rfl

theorem foldl_push_frameOf (tree : List BCRange) (frames : List IRFrame) :
    tree.foldl (fun fr r => fr ++ [frameOf r]) frames = frames ++ tree.map frameOf := by
  induction tree generalizing frames with
  | nil => simp
  | cons r rest ih => rw [List.foldl_cons, ih]; simp

theorem collectFrames_foldl (file : TFile) (acc : List IRFrame) :
    file.foldl
        (fun frames key =>
          if !key.isDirectory then frames
          else
            match key.getRanges with
            | none => frames
            | some tree => tree.foldl (fun fr r => fr ++ [frameOf r]) frames)
        acc
      = acc ++ (rangeEntries file).map frameOf := by
  induction file generalizing acc with
  | nil => simp [rangeEntries]
  | cons k rest ih =>
    rw [List.foldl_cons, ih]
    cases hd : k.isDirectory with
    | false => simp [rangeEntries, hd]
    | true =>
      cases hk : k.getRanges with
      | none => simp [rangeEntries, hd, hk]
      | some tree => simp [rangeEntries, hd, hk, foldl_push_frameOf]

theorem collectFrames_eq (file : TFile) :
    collectFrames file = (rangeEntries file).map frameOf := by
  unfold collectFrames
  rw [collectFrames_foldl]
  rfl

theorem foldl_range_count (g : Nat → Bool) (n : Nat) :
    (List.range n).foldl (fun acc i => acc + (if g i then 0 else 1)) 0
      = ((List.range n).filter (fun i => !g i)).length := by
  induction n with
  | zero => rfl
  | succ k ih =>
    rw [List.range_succ, List.foldl_append, List.filter_append, List.length_append, ← ih]
    cases hg : g k <;> simp [hg]

theorem length_filter_range_getD (bcids : List InteractionRecord)
    (q : InteractionRecord → Bool) :
    ((List.range bcids.length).filter (fun i => q (bcids.getD i ⟨0⟩))).length
      = (bcids.filter q).length := by
  induction bcids using List.reverseRecOn with
  | nil => rfl
  | append_singleton l a ih =>
    rw [List.length_append, List.length_singleton, List.range_succ, List.filter_append,
      List.filter_append, List.length_append, List.length_append, ← ih]
    congr 1
    · congr 1
      apply List.filter_congr
      intro i hi
      rw [List.mem_range] at hi
      rw [List.getD_eq_getElem?_getD, List.getD_eq_getElem?_getD, List.getElem?_append_left hi]
    · have : (l ++ [a]).getD l.length ⟨0⟩ = a := by
        rw [List.getD_eq_getElem?_getD, List.getElem?_append_right (Nat.le_refl _)]
        simp
      simp only [List.filter_cons, List.filter_nil, this]
      split <;> rfl

theorem countNotFound_eq (bcids : List InteractionRecord) (found : List Bool)
    (g : InteractionRecord → Bool)
    (hfound : ∀ i, found.getD i false = (decide (i < bcids.length) && g (bcids.getD i ⟨0⟩))) :
    countNotFound bcids found = (bcids.filter (fun b => !g b)).length := by
  unfold countNotFound
  rw [foldl_range_count (fun i => found.getD i false),
    ← length_filter_range_getD bcids (fun b => !g b)]
  congr 1
  apply List.filter_congr
  intro i hi
  rw [List.mem_range] at hi
  rw [hfound i]
  simp [hi]

theorem not_isOutside_frameOf (r : BCRange) (t : Nat) :
    (!(frameOf r).isOutside (InteractionRecord.setFromLong t))
      = (decide (r.fBCstart ≤ t) && decide (t ≤ r.fBCend)) := by
  simp only [IRFrame.isOutside, frameOf, InteractionRecord.setFromLong]
  by_cases h1 : r.fBCstart ≤ t <;> by_cases h2 : t ≤ r.fBCend <;> simp [h1, h2]
  all_goals omega

theorem any_not_isOutside (ranges : List BCRange) (t : Nat) :
    ranges.any (fun r => !(frameOf r).isOutside (InteractionRecord.setFromLong t))
      = inSomeRange ranges t := by
  unfold inSomeRange
  congr 1
  funext r
  exact not_isOutside_frameOf r t

theorem length_filter_map_setFromLong (ranges : List BCRange) (entries : List Decision) :
    ((entries.map (fun e => InteractionRecord.setFromLong e.fGlobalBCId)).filter
        (fun b => !ranges.any (fun r => !(frameOf r).isOutside b))).length
      = (entries.filter (fun e => !inSomeRange ranges e.fGlobalBCId)).length := by
  rw [List.filter_map, List.length_map]
  congr 2
  funext e
  simp only [Function.comp, any_not_isOutside]

theorem checkDirectory_eq (ranges : List BCRange) (decision : List Decision) :
    checkDirectory ranges decision
      = Line.coutFound (entriesNotInRanges ranges decision).length
          (selectedEntries decision).length := by
  unfold checkDirectory
  simp only
  rw [pushSelected_eq, List.nil_append,
    countNotFound_eq _ _ (fun b => ranges.any (fun r => !(frameOf r).isOutside b))
      (fun i => getD_foundInRanges ranges _ i),
    length_filter_map_setFromLong, List.length_map]
  rfl

theorem checkBCRange_foldl (file : TFile) (acc : List Line) :
    file.foldl
        (fun out directoryKey =>
          match directoryKey.getRanges, directoryKey.getDecision with
          | some treeRanges, some treeDecision =>
            out ++ [checkDirectory treeRanges treeDecision]
          | _, _ => out ++ [Line.cerrMissingTrees directoryKey.name])
        acc
      = acc ++ file.map (fun k =>
          match k.getRanges, k.getDecision with
          | some treeRanges, some treeDecision => checkDirectory treeRanges treeDecision
          | _, _ => Line.cerrMissingTrees k.name) := by
  induction file generalizing acc with
  | nil => simp
  | cons k rest ih =>
    rw [List.foldl_cons, ih]
    cases hr : k.getRanges <;> cases hd : k.getDecision <;> simp [hr, hd]

theorem checkBCRange_eq_map (file : TFile) :
    checkBCRange file
      = file.map (fun k =>
          match k.getRanges, k.getDecision with
          | some treeRanges, some treeDecision => checkDirectory treeRanges treeDecision
          | _, _ => Line.cerrMissingTrees k.name) := by
  unfold checkBCRange
  rw [checkBCRange_foldl]
  rfl

theorem checkBCRangeWithRangeFile_eq (inputFile rangeFile : TFile) :
    checkBCRangeWithRangeFile inputFile rangeFile
      = [Line.coutFound
          (entriesNotInRanges (rangeEntries rangeFile) (decisionEntries inputFile)).length
          (selectedEntries (decisionEntries inputFile)).length] := by
  unfold checkBCRangeWithRangeFile
  simp only
  rw [collectBCs_eq, collectFrames_eq,
    countNotFound_eq _ _
      (fun b => ((rangeEntries rangeFile).map frameOf).any (fun frame => !frame.isOutside b))
      (fun i => getD_foundInFrames _ _ i),
    List.length_map]
  congr 2
  have := length_filter_map_setFromLong (rangeEntries rangeFile)
    (selectedEntries (decisionEntries inputFile))
  rw [← entriesNotInRanges.eq_def] at this
  rw [← this]
  congr 2
  funext b
  congr 1
  induction rangeEntries rangeFile with
  | nil => rfl
  | cons r rest ih => simp only [List.map_cons, List.any_cons, ih]

end CheckBCRange

/-! ## Lemmas: EMCPhotonCut -/

namespace PWGEM

theorem bind_not_eq_some_true (o rest : Option Bool) :
    (o.bind fun b => if !b then some false else rest) = some true
      ↔ o = some true ∧ rest = some true := by
  rcases o with _ | _ | _ <;> simp

/-- A distance, the absolute value of a rounded difference, is above every negative bound. -/
theorem F32.abs_round32_gt_of_neg (x y : ℚ) (hy : y < 0) :
    (F32.abs (round32 x)).gt y = true := by
  unfold round32
  simp only
  split_ifs
  · simpa [F32.abs, F32.gt] using hy
  · simp [F32.abs, F32.gt]
  · simp [F32.abs, F32.gt]
  · simp only [F32.abs, F32.gt, decide_eq_true_eq]
    exact lt_of_lt_of_le hy (abs_nonneg _)
  · simp only [F32.abs, F32.gt, decide_eq_true_eq]
    exact lt_of_lt_of_le hy (abs_nonneg _)

/-- The binary32 value nearest to 1/3 is 11184811 / 2 ^ 25, above 1/3. -/
theorem round32_third : round32 (1 / 3) = .finite (11184811 / 33554432) := by
  have hb : binade |(1 / 3 : ℚ)| = -2 := by
    norm_num [binade, Nat.log2, abs_of_pos]
  have hf : ⌊(33554432 / 3 : ℚ)⌋ = 11184810 := by norm_num [Int.floor_eq_iff]
  have hr : roundHalfEven (|(1 / 3 : ℚ)| / (2 : ℚ) ^ (min (max (-2 : ℤ) (-126)) 127 - 23))
      = 11184811 := by
    have h : |(1 / 3 : ℚ)| / (2 : ℚ) ^ (min (max (-2 : ℤ) (-126)) 127 - 23)
        = 33554432 / 3 := by
      norm_num [abs_of_pos]
    rw [h]
    unfold roundHalfEven
    simp only [hf]
    norm_num
  unfold round32
  rw [if_neg (by norm_num)]
  simp only [hb, hr]
  norm_num

/-- The case `kTM` with both track-matching functions set: the disjunction of line 93. -/
theorem IsSelectedEMCal_kTM_eq (self : EMCPhotonCut) (cluster : Cluster) (track : Track)
    (etaMax phiMax : ℚ → ℚ) (hEta : self.mTrackMatchingEta = some etaMax)
    (hPhi : self.mTrackMatchingPhi = some phiMax) :
    self.IsSelectedEMCal cluster track .kTM
      = some ((dEta cluster track).gt (etaMax track.trackpt)
          || (dPhi cluster track).gt (phiMax track.trackpt)
          || (F32.div cluster.e track.trackp).ge self.mMinEoverP) := by
  unfold EMCPhotonCut.IsSelectedEMCal EMCPhotonCut.trackMatching callFunction
  simp only [hEta, hPhi, Option.map_some', Option.some_bind]
  cases (dEta cluster track).gt (etaMax track.trackpt) <;>
    cases (dPhi cluster track).gt (phiMax track.trackpt) <;> simp

end PWGEM

/-! ## Lemmas: NucleiHistTask -/

namespace NucleiHistTask

theorem failsTrackCuts_eq_false_iff (cfg : Configurables) (track : Track) :
    failsTrackCuts cfg track = false ↔ passesTrackQuality cfg track := by
  simp only [failsTrackCuts, passesTrackQuality, Bool.or_eq_false_iff, decide_eq_false_iff_not,
    not_lt, gt_iff_lt, Bool.not_eq_false', and_assoc]

theorem failsDCACuts_eq_false_iff (cfg : Configurables) (track : Track) :
    failsDCACuts cfg track = false ↔ passesDCA cfg track := by
  simp only [failsDCACuts, passesDCA, Bool.or_eq_false_iff, decide_eq_false_iff_not,
    not_lt, gt_iff_lt]

theorem failsRapidityCut_eq_false_iff (cfg : Configurables) (phys : Physics) (track : Track) :
    failsRapidityCut cfg phys track = false ↔ passesRapidity cfg phys track := by
  simp only [failsRapidityCut, passesRapidity, Bool.or_eq_false_iff, decide_eq_false_iff_not,
    not_lt, gt_iff_lt, and_assoc]

theorem filter_isKeepEventOf_speciesFills (reg r : Registry) (scale tofNSigma : ℚ)
    (track : Track) :
    (speciesFills r scale tofNSigma track).filter (Fill.isKeepEventOf reg) = [] := by
  unfold speciesFills
  cases track.hasTOF <;> simp [Fill.isKeepEventOf]

theorem filter_isKeepEventOf_qaFills (reg : Registry) (track : Track) :
    (qaFills track).filter (Fill.isKeepEventOf reg) = [] := by
  unfold qaFills
  by_cases h1 : track.sign > 0 <;> by_cases h2 : track.sign < 0 <;> cases track.hasTOF <;>
    simp [Fill.isKeepEventOf, h1, h2]

theorem filter_isKeepEventOf_dcaFills (reg : Registry) (track : Track) :
    (dcaFills track).filter (Fill.isKeepEventOf reg) = [] := by
  unfold dcaFills
  by_cases h1 : track.sign > 0 <;> by_cases h2 : track.sign < 0 <;>
    simp [Fill.isKeepEventOf, h1, h2]

theorem skimCondition_keepEvent (cfg : Configurables) (track : Track) (reg areg : Registry)
    (scale nSigma tofNSigma : ℚ) (keepEvent keepEvent_anti : Bool) (fills : List Fill) :
    (skimCondition cfg track reg areg scale nSigma tofNSigma keepEvent keepEvent_anti
        fills).keepEvent = true
      ↔ keepEvent = true
        ∨ (track.sign > 0 ∧ cfg.nsigmacutLow < nSigma ∧ nSigma < cfg.nsigmacutHigh) := by
  unfold skimCondition
  by_cases hw : nSigma > cfg.nsigmacutLow ∧ nSigma < cfg.nsigmacutHigh
  · rw [if_pos hw]
    by_cases hs : track.sign > 0
    · simp [hs, hw.1, hw.2]
    · simp [hs]
  · rw [if_neg hw]
    constructor
    · exact Or.inl
    · rintro (h | ⟨_, h1, h2⟩)
      · exact h
      · exact absurd ⟨h1, h2⟩ hw

theorem skimCondition_keepEvent_anti (cfg : Configurables) (track : Track)
    (reg areg : Registry) (scale nSigma tofNSigma : ℚ) (keepEvent keepEvent_anti : Bool)
    (fills : List Fill) :
    (skimCondition cfg track reg areg scale nSigma tofNSigma keepEvent keepEvent_anti
        fills).keepEvent_anti = true
      ↔ keepEvent_anti = true
        ∨ (track.sign < 0 ∧ cfg.nsigmacutLow < nSigma ∧ nSigma < cfg.nsigmacutHigh) := by
  unfold skimCondition
  by_cases hw : nSigma > cfg.nsigmacutLow ∧ nSigma < cfg.nsigmacutHigh
  · rw [if_pos hw]
    by_cases hs : track.sign < 0
    · simp [hs, hw.1, hw.2]
    · simp [hs]
  · rw [if_neg hw]
    constructor
    · exact Or.inl
    · rintro (h | ⟨_, h1, h2⟩)
      · exact h
      · exact absurd ⟨h1, h2⟩ hw

theorem skimCondition_fills (kreg : Registry) (cfg : Configurables) (track : Track)
    (reg areg : Registry) (scale nSigma tofNSigma : ℚ) (keepEvent keepEvent_anti : Bool)
    (fills : List Fill) :
    (skimCondition cfg track reg areg scale nSigma tofNSigma keepEvent keepEvent_anti
        fills).fills.filter (Fill.isKeepEventOf kreg)
      = fills.filter (Fill.isKeepEventOf kreg) := by
  unfold skimCondition
  by_cases hw : nSigma > cfg.nsigmacutLow ∧ nSigma < cfg.nsigmacutHigh
  · rw [if_pos hw]
    simp only [List.filter_append]
    by_cases h1 : track.sign > 0 <;> by_cases h2 : track.sign < 0 <;> cases track.hasTOF <;>
      simp [h1, h2, filter_isKeepEventOf_speciesFills, Fill.isKeepEventOf]
  · rw [if_neg hw]

theorem trackLoopBody_fills (kreg : Registry) (cfg : Configurables) (phys : Physics)
    (s : LoopState) (track : Track) :
    (trackLoopBody cfg phys s track).fills.filter (Fill.isKeepEventOf kreg)
      = s.fills.filter (Fill.isKeepEventOf kreg) := by
  unfold trackLoopBody
  by_cases h1 : failsTrackCuts cfg track = true
  · rw [if_pos h1]
  · rw [if_neg h1]
    simp only
    by_cases h2 : failsDCACuts cfg track = true
    · rw [if_pos h2, List.filter_append, filter_isKeepEventOf_dcaFills, List.append_nil]
    · rw [if_neg h2]
      by_cases h3 : failsRapidityCut cfg phys track = true
      · rw [if_pos h3, List.filter_append, filter_isKeepEventOf_dcaFills, List.append_nil]
      · rw [if_neg h3]
        simp only [skimCondition_fills, List.filter_append, filter_isKeepEventOf_dcaFills,
          filter_isKeepEventOf_qaFills, List.append_nil]

theorem trackLoopBody_keepEvent (cfg : Configurables) (phys : Physics) (s : LoopState)
    (track : Track) (sp : Species) :
    (trackLoopBody cfg phys s track).keepEvent sp = true
      ↔ s.keepEvent sp = true ∨ keepsEvent cfg phys sp track := by
  unfold trackLoopBody keepsEvent
  rw [← failsTrackCuts_eq_false_iff, ← failsDCACuts_eq_false_iff,
    ← failsRapidityCut_eq_false_iff]
  by_cases h1 : failsTrackCuts cfg track = true
  · rw [if_pos h1]
    simp [h1]
  · rw [if_neg h1]
    simp only
    by_cases h2 : failsDCACuts cfg track = true
    · rw [if_pos h2]
      cases sp <;> simp [h2, LoopState.keepEvent]
    · rw [if_neg h2]
      by_cases h3 : failsRapidityCut cfg phys track = true
      · rw [if_pos h3]
        cases sp <;> simp [h3, LoopState.keepEvent]
      · rw [if_neg h3]
        rw [Bool.not_eq_true] at h1 h2 h3
        cases sp <;>
          simp [h1, h2, h3, LoopState.keepEvent, Species.isAnti, Species.tpcNSigma,
            skimCondition_keepEvent, skimCondition_keepEvent_anti]

theorem foldl_trackLoopBody_fills (kreg : Registry) (cfg : Configurables) (phys : Physics)
    (tracks : List Track) (s : LoopState) :
    (tracks.foldl (trackLoopBody cfg phys) s).fills.filter (Fill.isKeepEventOf kreg)
      = s.fills.filter (Fill.isKeepEventOf kreg) := by
  induction tracks generalizing s with
  | nil => rfl
  | cons t rest ih => rw [List.foldl_cons, ih, trackLoopBody_fills]

theorem foldl_trackLoopBody_keepEvent (cfg : Configurables) (phys : Physics)
    (tracks : List Track) (s : LoopState) (sp : Species) :
    (tracks.foldl (trackLoopBody cfg phys) s).keepEvent sp = true
      ↔ s.keepEvent sp = true ∨ ∃ track ∈ tracks, keepsEvent cfg phys sp track := by
  induction tracks generalizing s with
  | nil => simp
  | cons t rest ih =>
    rw [List.foldl_cons, ih, trackLoopBody_keepEvent]
    simp only [List.mem_cons, exists_eq_or_imp, or_assoc]

theorem filter_isKeepEventOf_keepEventFills (s : LoopState) (sp : Species) :
    (keepEventFills s).filter (Fill.isKeepEventOf sp.registry)
      = [⟨sp.registry, .histKeepEventData, [boolValue (s.keepEvent sp)]⟩] := by
  cases sp <;>
    simp [keepEventFills, Fill.isKeepEventOf, Species.registry, LoopState.keepEvent]

theorem filter_not_spectra_dcaFills (track : Track) :
    (dcaFills track).filter (fun f => f.registry != Registry.spectra) = [] := by
  unfold dcaFills
  by_cases h1 : track.sign > 0 <;> by_cases h2 : track.sign < 0 <;> simp [h1, h2]

end NucleiHistTask

/-! ## Lemmas: qaMatchEff -/

namespace QaMatchEff

theorem ldiff_two_pow (a i : Nat) :
    Nat.ldiff (2 ^ i) a = (!a.testBit i).toNat * 2 ^ i := by
  apply Nat.eq_of_testBit_eq
  intro k
  rw [Nat.testBit_ldiff, Nat.testBit_two_pow]
  by_cases hik : i = k
  · subst hik
    cases a.testBit i <;> simp [Nat.testBit_two_pow]
  · cases a.testBit i <;> cases a.testBit k <;> simp [hik, Nat.testBit_two_pow]

theorem land_two_pow_pos_iff (m : Int) (i : Nat) :
    Int.land m ((1 <<< i : Nat) : Int) > 0 ↔ m.testBit i = true := by
  rw [Nat.one_shiftLeft]
  cases m with
  | ofNat a =>
    show ((a &&& 2 ^ i : Nat) : Int) > 0 ↔ a.testBit i = true
    rw [Nat.and_two_pow]
    cases a.testBit i <;> simp
  | negSucc a =>
    show ((Nat.ldiff (2 ^ i) a : Nat) : Int) > 0 ↔ (!a.testBit i) = true
    rw [ldiff_two_pow]
    cases a.testBit i <;> simp

theorem foldl_range_push (p : Nat → Prop) [DecidablePred p] (n : Nat) :
    (List.range n).foldl (fun set i => if p i then set ++ [i] else set) []
      = (List.range n).filter (fun i => decide (p i)) := by
  induction n with
  | zero => rfl
  | succ k ih =>
    rw [List.range_succ, List.foldl_append, List.filter_append, ih]
    by_cases hk : p k <;> simp [hk]

theorem set_customITShitmap_eq (cfg : Configurables) :
    set_customITShitmap cfg
      = (List.range 7).filter (fun i => cfg.customITShitmap.testBit i) := by
  unfold set_customITShitmap
  rw [foldl_range_push (fun i => Int.land cfg.customITShitmap ((1 <<< i : Nat) : Int) > 0)]
  apply List.filter_congr
  intro i _
  by_cases h : cfg.customITShitmap.testBit i = true
  · simp [h, (land_two_pow_pos_iff _ _).mpr h]
  · have h' := mt (land_two_pow_pos_iff cfg.customITShitmap i).mp h
    simp only [Bool.not_eq_true] at h
    simp [h, h']

end QaMatchEff

namespace QaMatchEff

theorem filter_ite (p : Fill → Bool) (c : Prop) [Decidable c] (l₁ l₂ : List Fill) :
    (if c then l₁ else l₂).filter p = if c then l₁.filter p else l₂.filter p := by
  split <;> rfl

theorem filter_thn_commonFills_MC (tpcTag itsTag : Bool) (trackPt : ℚ) (track : Track) :
    (commonFills "MC" tpcTag itsTag trackPt track).filter
        (fun f => f.hist == "MC/thnsforfrac") = [] := by
  cases tpcTag <;> cases itsTag <;>
    simp [commonFills, tpcItsFills, ptPhiEta, itsHitsMatchedFills, List.filter_append,
      filter_ite, List.filter_map]

theorem filter_thn_mcFills (mcpart : McParticle) (tpPDGCode : Int) (tpcTag itsTag : Bool)
    (trackPt : ℚ) (track : Track) :
    (mcFills mcpart tpPDGCode tpcTag itsTag trackPt track).filter
        (fun f => f.hist == "MC/thnsforfrac") = [] := by
  cases tpcTag <;> cases itsTag <;>
    simp [mcFills, tpcItsFills, ptPhiEta, List.filter_append, filter_ite]

theorem filter_thn_diffFills (ext : Externals) (mcpart : McParticle) (track : Track) :
    (diffFills ext mcpart track).filter (fun f => f.hist == "MC/thnsforfrac") = [] := by
  unfold diffFills
  cases mcpart.isPhysicalPrimary <;> simp

end QaMatchEff

namespace QaMatchEff

theorem TMath.Abs_eq_zero_iff (d : Int) : TMath.Abs d = 0 ↔ d = 0 := by
  unfold TMath.Abs
  split_ifs with h
  · subst h
    decide
  · exact abs_eq_zero

/-- The species index at the smallest `int` is 5 with and without the wrap. -/
theorem specind_Abs (d : Int) : specind (TMath.Abs d) = specind |d| := by
  unfold TMath.Abs
  split_ifs with h
  · subst h
    decide
  · rfl

/-- The wrap of `TMath::Abs` at the smallest `int` changes no fill of the MC categories. -/
theorem mcFills_Abs (mcpart : McParticle) (d : Int) (tpcTag itsTag : Bool) (trackPt : ℚ)
    (track : Track) :
    mcFills mcpart (TMath.Abs d) tpcTag itsTag trackPt track
      = mcFills mcpart |d| tpcTag itsTag trackPt track := by
  unfold TMath.Abs
  split_ifs with h
  · subst h
    rfl
  · rfl

/-- The label sign of line 504 with the divisor of line 482: +1 for a positive code, -1 for a
negative one, except for the smallest `int`, whose absolute value wraps and gives +1; no value
for the code 0. -/
theorem signPDGCode_Abs (pdgCode : Int) :
    signPDGCode pdgCode (TMath.Abs pdgCode)
      = if pdgCode = 0 then none
        else some (if 0 < pdgCode ∨ pdgCode = -2147483648 then 1 else -1) := by
  unfold signPDGCode
  by_cases h0 : pdgCode = 0
  · rw [if_pos ((TMath.Abs_eq_zero_iff _).2 h0), if_pos h0]
  · rw [if_neg (fun h => h0 ((TMath.Abs_eq_zero_iff _).1 h)), if_neg h0]
    congr 1
    unfold TMath.Abs
    by_cases hmin : pdgCode = -2147483648
    · subst hmin
      decide
    · rw [if_neg hmin]
      by_cases hpos : 0 < pdgCode
      · rw [if_pos (Or.inl hpos), abs_of_pos hpos, Int.tdiv_self h0]
      · have hneg : pdgCode < 0 := by omega
        rw [if_neg (by omega), abs_of_neg hneg, Int.tdiv_neg, Int.tdiv_self h0]

/-- The fill of `MC/thnsforfrac` for a track and its MC particle. -/
theorem selectedTrackFills_mc (cfg : Configurables) (ext : Externals)
    (cutObject : TrackSelection) (mcpart : McParticle) (trackPt : ℚ) (track : Track)
    (hpdg : mcpart.pdgCode ≠ 0) :
    ∃ fills, selectedTrackFills cfg ext cutObject (some mcpart) trackPt track = some fills
      ∧ fills.filter (fun f => f.hist == "MC/thnsforfrac")
        = if cfg.makethn then
            [⟨"MC/thnsforfrac",
              [track.dcaXY, trackPt, track.phi, track.eta, (sayPrim mcpart : ℚ),
                ((if 0 < mcpart.pdgCode ∨ mcpart.pdgCode = -2147483648 then 1 else -1 : Int) : ℚ),
                (specind (TMath.Abs mcpart.pdgCode) : ℚ)]⟩]
          else [] := by
  unfold selectedTrackFills
  simp only [signPDGCode_Abs, if_neg hpdg, Option.map_some']
  refine ⟨_, rfl, ?_⟩
  simp only [List.filter_append, filter_thn_commonFills_MC, filter_thn_mcFills,
    filter_thn_diffFills, List.append_nil, List.nil_append, filter_ite]
  cases cfg.makethn <;> simp

theorem trackLoopBody_skipped (cfg : Configurables) (ext : Externals)
    (cutObject : TrackSelection) (IS_MC : Bool) (s : LoopState) (track : Track)
    (h : skippedByTRD cfg track = true) :
    trackLoopBody cfg ext cutObject IS_MC s track = some s := by
  unfold trackLoopBody
  unfold skippedByTRD at h
  by_cases h1 : cfg.isTRDThere = 1
  · by_cases h0 : cfg.isTRDThere = 0
    · omega
    · cases ht : track.hasTRD <;> simp_all
  · by_cases h0 : cfg.isTRDThere = 0
    · cases ht : track.hasTRD <;> simp_all
    · simp_all

theorem skip_conditions_false (cfg : Configurables) (track : Track)
    (h : skippedByTRD cfg track = false) :
    (cfg.isTRDThere == 1 && !track.hasTRD) = false
      ∧ (cfg.isTRDThere == 0 && track.hasTRD) = false := by
  unfold skippedByTRD at h
  constructor
  · by_cases h1 : cfg.isTRDThere = 1 <;> cases ht : track.hasTRD <;> simp_all
  · by_cases h0 : cfg.isTRDThere = 0 <;> cases ht : track.hasTRD <;> simp_all

theorem trackLoopBody_mc_not_skipped (cfg : Configurables) (ext : Externals)
    (cutObject : TrackSelection) (s : LoopState) (track : Track) (mcpart : McParticle)
    (hmc : track.mcParticle = some mcpart) (h : skippedByTRD cfg track = false) :
    trackLoopBody cfg ext cutObject true s track
      = if isTrackSelectedKineCuts cfg ext cutObject track = true then
          (selectedTrackFills cfg ext cutObject (some mcpart) (filledPt cfg ext track)
              track).map
            fun fills =>
              { countData := s.countData + 1, countNoMC := s.countNoMC,
                fills := s.fills ++ fills }
        else some s := by
  obtain ⟨e1, e0⟩ := skip_conditions_false cfg track h
  unfold trackLoopBody filledPt
  simp only [e1, e0, hmc, Option.isSome_some, Bool.not_true, Bool.and_false, if_true]
  cases isTrackSelectedKineCuts cfg ext cutObject track <;> simp

theorem trackLoopBody_mc (cfg : Configurables) (ext : Externals) (cutObject : TrackSelection)
    (s : LoopState) (track : Track) (mcpart : McParticle)
    (hmc : track.mcParticle = some mcpart) (hpdg : mcpart.pdgCode ≠ 0) :
    ∃ s' new, trackLoopBody cfg ext cutObject true s track = some s'
      ∧ s'.fills = s.fills ++ new
      ∧ new.filter (fun f => f.hist == "MC/thnsforfrac")
        = if reachesFills cfg ext cutObject track = true ∧ cfg.makethn = true then
            [⟨"MC/thnsforfrac",
              [track.dcaXY, filledPt cfg ext track, track.phi, track.eta, (sayPrim mcpart : ℚ),
                ((if 0 < mcpart.pdgCode ∨ mcpart.pdgCode = -2147483648 then 1 else -1 : Int) : ℚ),
                (specind (TMath.Abs mcpart.pdgCode) : ℚ)]⟩]
          else [] := by
  cases hskip : skippedByTRD cfg track
  · rw [trackLoopBody_mc_not_skipped _ _ _ _ _ _ hmc hskip]
    cases hk : isTrackSelectedKineCuts cfg ext cutObject track
    · refine ⟨s, [], by simp, by simp, ?_⟩
      simp [reachesFills, hk]
    · obtain ⟨fills, hf, hthn⟩ := selectedTrackFills_mc cfg ext cutObject mcpart
        (filledPt cfg ext track) track hpdg
      refine ⟨_, fills, by rw [if_pos rfl, hf]; rfl, rfl, ?_⟩
      rw [hthn]
      simp [reachesFills, hskip, hk]
  · refine ⟨s, [], trackLoopBody_skipped _ _ _ _ _ _ hskip, by simp, ?_⟩
    simp [reachesFills, hskip]

end QaMatchEff

namespace QaMatchEff

theorem selectedTrackFills_pdg_zero (cfg : Configurables) (ext : Externals)
    (cutObject : TrackSelection) (mcpart : McParticle) (trackPt : ℚ) (track : Track)
    (hpdg : mcpart.pdgCode = 0) :
    selectedTrackFills cfg ext cutObject (some mcpart) trackPt track = none := by
  unfold selectedTrackFills
  simp [hpdg, signPDGCode, TMath.Abs]

/-- The fills of `MC/thnsforfrac` that an MC track makes, whenever the iteration completes. -/
theorem trackLoopBody_mc_thnsforfrac (cfg : Configurables) (ext : Externals)
    (cutObject : TrackSelection) (s s' : LoopState) (track : Track) (mcpart : McParticle)
    (hmc : track.mcParticle = some mcpart)
    (hbody : trackLoopBody cfg ext cutObject true s track = some s') :
    ∃ new, s'.fills = s.fills ++ new
      ∧ new.filter (fun f => f.hist == "MC/thnsforfrac")
        = if reachesFills cfg ext cutObject track = true ∧ cfg.makethn = true then
            [⟨"MC/thnsforfrac",
              [track.dcaXY, filledPt cfg ext track, track.phi, track.eta, (sayPrim mcpart : ℚ),
                ((if 0 < mcpart.pdgCode ∨ mcpart.pdgCode = -2147483648 then 1 else -1 : Int) : ℚ),
                (specind (TMath.Abs mcpart.pdgCode) : ℚ)]⟩]
          else [] := by
  by_cases hpdg : mcpart.pdgCode = 0
  · cases hskip : skippedByTRD cfg track
    · rw [trackLoopBody_mc_not_skipped _ _ _ _ _ _ hmc hskip,
        selectedTrackFills_pdg_zero _ _ _ _ _ _ hpdg] at hbody
      cases hk : isTrackSelectedKineCuts cfg ext cutObject track
      · rw [hk] at hbody
        simp only [Bool.false_eq_true, if_false, Option.some.injEq] at hbody
        subst hbody
        exact ⟨[], by simp, by simp [reachesFills, hk]⟩
      · rw [hk] at hbody
        simp at hbody
    · rw [trackLoopBody_skipped _ _ _ _ _ _ hskip] at hbody
      simp only [Option.some.injEq] at hbody
      subst hbody
      exact ⟨[], by simp, by simp [reachesFills, hskip]⟩
  · obtain ⟨s'', new, h1, h2, h3⟩ := trackLoopBody_mc cfg ext cutObject s track mcpart hmc hpdg
    rw [h1] at hbody
    simp only [Option.some.injEq] at hbody
    subst hbody
    exact ⟨new, h2, h3⟩

theorem mem_of_filter_eq_singleton {p : Fill → Bool} {new : List Fill} {c : Prop}
    [Decidable c] {g f : Fill} (h : new.filter p = if c then [g] else [])
    (hf : f ∈ new) (hp : p f = true) : c ∧ f = g := by
  have hmem : f ∈ new.filter p := List.mem_filter.mpr ⟨hf, hp⟩
  rw [h] at hmem
  by_cases hc : c
  · rw [if_pos hc] at hmem
    exact ⟨hc, List.mem_singleton.mp hmem⟩
  · rw [if_neg hc] at hmem
    cases hmem

theorem exists_of_filter_eq_singleton {p : Fill → Bool} {new : List Fill} {c : Prop}
    [Decidable c] {g : Fill} (h : new.filter p = if c then [g] else []) (hc : c) :
    g ∈ new ∧ p g = true := by
  rw [if_pos hc] at h
  have hmem : g ∈ new.filter p := by rw [h]; exact List.mem_singleton.mpr rfl
  exact List.mem_filter.mp hmem

end QaMatchEff

namespace QaMatchEff

/-- An iteration that completes either adds nothing, or adds the fills of a selected track. -/
theorem trackLoopBody_adds_selected_fills (cfg : Configurables) (ext : Externals)
    (cutObject : TrackSelection) (IS_MC : Bool) (s s' : LoopState) (track : Track)
    (hbody : trackLoopBody cfg ext cutObject IS_MC s track = some s') :
    ∃ new, s'.fills = s.fills ++ new
      ∧ (new = [] ∨ ∃ mc trackPt,
          selectedTrackFills cfg ext cutObject mc trackPt track = some new) := by
  unfold trackLoopBody at hbody
  by_cases h1 : (cfg.isTRDThere == 1 && !track.hasTRD) = true
  · rw [if_pos h1] at hbody
    cases hbody
    exact ⟨[], by simp, Or.inl rfl⟩
  rw [if_neg h1] at hbody
  by_cases h2 : (cfg.isTRDThere == 0 && track.hasTRD) = true
  · rw [if_pos h2] at hbody
    cases hbody
    exact ⟨[], by simp, Or.inl rfl⟩
  rw [if_neg h2] at hbody
  by_cases h3 : (IS_MC && !track.mcParticle.isSome) = true
  · rw [if_pos h3] at hbody
    cases hbody
    exact ⟨[], by simp, Or.inl rfl⟩
  rw [if_neg h3] at hbody
  simp only at hbody
  by_cases h4 : (!isTrackSelectedKineCuts cfg ext cutObject track) = true
  · rw [if_pos h4] at hbody
    cases hbody
    exact ⟨[], by simp, Or.inl rfl⟩
  rw [if_neg h4] at hbody
  simp only [Option.map_eq_some'] at hbody
  obtain ⟨fills, hf, rfl⟩ := hbody
  exact ⟨fills, rfl, Or.inr ⟨_, _, hf⟩⟩

/-- The three histograms of material-secondary pions with the TPC+ITS tag. -/
theorem selectedTrackFills_never_tpcits_pi_secm (cfg : Configurables) (ext : Externals)
    (cutObject : TrackSelection) (mc : Option McParticle) (trackPt : ℚ) (track : Track)
    (fills : List Fill)
    (h : selectedTrackFills cfg ext cutObject mc trackPt track = some fills) :
    fills.filter (fun f => f.hist == "MC/pthist_tpcits_pi_secm"
      || f.hist == "MC/phihist_tpcits_pi_secm" || f.hist == "MC/etahist_tpcits_pi_secm")
      = [] := by
  unfold selectedTrackFills at h
  cases mc with
  | none =>
    simp only [Option.some.injEq] at h
    subst h
    cases track.hasTPC && isTrackSelectedTPCCuts cfg ext cutObject track <;>
      cases track.hasITS && isTrackSelectedITSCuts cfg ext cutObject track <;>
      simp [commonFills, tpcItsFills, ptPhiEta, itsHitsMatchedFills, List.filter_append,
        filter_ite, List.filter_map]
  | some mcpart =>
    simp only [Option.map_eq_some'] at h
    obtain ⟨sign, _, rfl⟩ := h
    cases track.hasTPC && isTrackSelectedTPCCuts cfg ext cutObject track <;>
      cases track.hasITS && isTrackSelectedITSCuts cfg ext cutObject track <;>
      cases mcpart.isPhysicalPrimary <;>
      simp [commonFills, mcFills, diffFills, tpcItsFills, ptPhiEta, itsHitsMatchedFills,
        List.filter_append, filter_ite, List.filter_map]

/-- The fills of `MC/pthist_tpc_nopi` among those of the MC categories. -/
theorem filter_nopi_mcFills (mcpart : McParticle) (tpPDGCode : Int) (tpcTag itsTag : Bool)
    (trackPt : ℚ) (track : Track) :
    (mcFills mcpart tpPDGCode tpcTag itsTag trackPt track).filter
        (fun f => f.hist == "MC/pthist_tpc_nopi")
      = if (!(tpPDGCode == 211 && mcpart.isPhysicalPrimary) && tpcTag) = true then
          [⟨"MC/pthist_tpc_nopi", [trackPt]⟩]
        else [] := by
  cases tpcTag <;> cases itsTag <;> cases hp : mcpart.isPhysicalPrimary <;>
    by_cases h : tpPDGCode = 211 <;>
    simp [mcFills, tpcItsFills, ptPhiEta, List.filter_append, filter_ite, h, hp]

end QaMatchEff
/-! ## Theorems -/

/-- C1. In both overloads of `checkBCRange`, for every list of ranges and every list of selected
BC timestamps checked against it, `found` has one flag per timestamp, and the flag of the `i`-th
timestamp is true iff at least one range has `start ≤ timestamp ≤ end`, both ends included. -/
theorem checkBCRange_found_iff_in_some_range (ranges : List CheckBCRange.BCRange)
    (ts : List Nat) (i : Nat) (h : i < ts.length) :
    ((CheckBCRange.foundInRanges ranges
          (ts.map CheckBCRange.InteractionRecord.setFromLong)).length = ts.length
      ∧ ((CheckBCRange.foundInRanges ranges
            (ts.map CheckBCRange.InteractionRecord.setFromLong)).getD i false = true
          ↔ ∃ r ∈ ranges, r.fBCstart ≤ ts.get ⟨i, h⟩ ∧ ts.get ⟨i, h⟩ ≤ r.fBCend))
    ∧ ((CheckBCRange.foundInFrames (ranges.map CheckBCRange.frameOf)
          (ts.map CheckBCRange.InteractionRecord.setFromLong)).length = ts.length
      ∧ ((CheckBCRange.foundInFrames (ranges.map CheckBCRange.frameOf)
            (ts.map CheckBCRange.InteractionRecord.setFromLong)).getD i false = true
          ↔ ∃ r ∈ ranges, r.fBCstart ≤ ts.get ⟨i, h⟩ ∧ ts.get ⟨i, h⟩ ≤ r.fBCend)) := by
  have hget : (ts.map CheckBCRange.InteractionRecord.setFromLong).getD i ⟨0⟩
      = CheckBCRange.InteractionRecord.setFromLong (ts.get ⟨i, h⟩) := by
    rw [List.getD_eq_getElem?_getD, List.getElem?_map, List.getElem?_eq_getElem h]
    rfl
  have hin : ∀ r : CheckBCRange.BCRange,
      (!(CheckBCRange.frameOf r).isOutside
          (CheckBCRange.InteractionRecord.setFromLong (ts.get ⟨i, h⟩))) = true
        ↔ r.fBCstart ≤ ts.get ⟨i, h⟩ ∧ ts.get ⟨i, h⟩ ≤ r.fBCend := by
    intro r
    rw [← CheckBCRange.isOutside_frameOf]
    simp
  refine ⟨⟨?_, ?_⟩, ⟨?_, ?_⟩⟩
  · rw [CheckBCRange.length_foundInRanges, List.length_map]
  · rw [CheckBCRange.getD_foundInRanges, hget, List.length_map]
    simp only [h, decide_True, Bool.true_and, List.any_eq_true]
    exact exists_congr fun r => and_congr_right fun _ => hin r
  · rw [CheckBCRange.length_foundInFrames, List.length_map]
  · rw [CheckBCRange.getD_foundInFrames, hget, List.length_map]
    simp only [h, decide_True, Bool.true_and, List.any_eq_true, List.mem_map]
    constructor
    · rintro ⟨f, ⟨r, hr, rfl⟩, hf⟩
      exact ⟨r, hr, (hin r).mp hf⟩
    · rintro ⟨r, hr, hb⟩
      exact ⟨_, ⟨r, hr, rfl⟩, (hin r).mpr hb⟩

/-- Witness for C1: the timestamp 15 checked against the ranges [10, 20] and [30, 40]. -/
theorem checkBCRange_found_iff_in_some_range_witness :
    0 < [15, 25].length
      ∧ (CheckBCRange.foundInRanges [⟨10, 20⟩, ⟨30, 40⟩]
          ([15, 25].map CheckBCRange.InteractionRecord.setFromLong)).getD 0 false = true
      ∧ (CheckBCRange.foundInFrames ([⟨10, 20⟩, ⟨30, 40⟩].map CheckBCRange.frameOf)
          ([15, 25].map CheckBCRange.InteractionRecord.setFromLong)).getD 0 false = true :=
  ⟨by decide,
    (checkBCRange_found_iff_in_some_range [⟨10, 20⟩, ⟨30, 40⟩] [15, 25] 0 (by decide)).1.2.mpr
      ⟨⟨10, 20⟩, by decide, by decide, by decide⟩,
    (checkBCRange_found_iff_in_some_range [⟨10, 20⟩, ⟨30, 40⟩] [15, 25] 0 (by decide)).2.2.mpr
      ⟨⟨10, 20⟩, by decide, by decide, by decide⟩⟩

/-- C2. The two numbers printed by `checkBCRange`, "Found N BCs not in ranges out of M": in the
one-file overload every directory with both trees prints M = the number of its decision entries
with `cefpSelected != 0` and N = the number of those whose BC lies in no range of the directory;
in the two-file overload the one line printed has M and N counted over all decision entries of
the input file and all ranges of the range file. Entries with `cefpSelected = 0` change neither
number, and N ≤ M. -/
theorem checkBCRange_printed_counts :
    (∀ inputFile : CheckBCRange.TFile,
        CheckBCRange.checkBCRange inputFile
          = inputFile.map (fun k =>
              match k.getRanges, k.getDecision with
              | some ranges, some decision =>
                CheckBCRange.Line.coutFound
                  (CheckBCRange.entriesNotInRanges ranges decision).length
                  (CheckBCRange.selectedEntries decision).length
              | _, _ => CheckBCRange.Line.cerrMissingTrees k.name))
    ∧ (∀ inputFile rangeFile : CheckBCRange.TFile,
        CheckBCRange.checkBCRangeWithRangeFile inputFile rangeFile
          = [CheckBCRange.Line.coutFound
              (CheckBCRange.entriesNotInRanges (CheckBCRange.rangeEntries rangeFile)
                (CheckBCRange.decisionEntries inputFile)).length
              (CheckBCRange.selectedEntries (CheckBCRange.decisionEntries inputFile)).length])
    ∧ (∀ (ranges : List CheckBCRange.BCRange) (decision : List CheckBCRange.Decision),
        CheckBCRange.checkDirectory ranges (CheckBCRange.selectedEntries decision)
          = CheckBCRange.checkDirectory ranges decision)
    ∧ (∀ (ranges : List CheckBCRange.BCRange) (decision : List CheckBCRange.Decision),
        (CheckBCRange.entriesNotInRanges ranges decision).length
          ≤ (CheckBCRange.selectedEntries decision).length) := by
  refine ⟨?_, ?_, ?_, ?_⟩
  · intro inputFile
    rw [CheckBCRange.checkBCRange_eq_map]
    apply List.map_congr_left
    intro k _
    cases hr : k.getRanges <;> cases hd : k.getDecision <;>
      simp [CheckBCRange.checkDirectory_eq]
  · exact CheckBCRange.checkBCRangeWithRangeFile_eq
  · intro ranges decision
    rw [CheckBCRange.checkDirectory_eq, CheckBCRange.checkDirectory_eq]
    simp [CheckBCRange.entriesNotInRanges, CheckBCRange.selectedEntries]
  · intro ranges decision
    exact List.length_filter_le _ _

/-- C3. The cut-library factories return a cut exactly for the names they know, compared
character by character: `pcmcuts::GetCut` for "analysis", "qc" and "nocut", `emccuts::GetCut` for
"standard" and "nocut". For every other name each returns null, and a returned cut carries the
name it was asked for. The cut returned for a known name is pre-populated: it holds exactly the
values that the setter calls of its branch store, listed here for each of the five names, and
for the PCM cut "nocut" the three setters that its branch does not call have stored nothing. -/
theorem GetCut_returns_cut_iff_known_name (pow : ℚ → ℚ → ℚ) (cutName : String) :
    ((PWGEM.pcmcuts.GetCut cutName).isSome
        ↔ cutName = "analysis" ∨ cutName = "qc" ∨ cutName = "nocut")
    ∧ (PWGEM.pcmcuts.GetCut cutName = none
        ↔ ¬ (cutName = "analysis" ∨ cutName = "qc" ∨ cutName = "nocut"))
    ∧ ((PWGEM.emccuts.GetCut pow cutName).isSome ↔ cutName = "standard" ∨ cutName = "nocut")
    ∧ (PWGEM.emccuts.GetCut pow cutName = none
        ↔ ¬ (cutName = "standard" ∨ cutName = "nocut"))
    ∧ (∀ cut, PWGEM.pcmcuts.GetCut cutName = some cut → cut.name = cutName)
    ∧ (∀ cut, PWGEM.emccuts.GetCut pow cutName = some cut → cut.name = cutName)
    ∧ PWGEM.pcmcuts.GetCut "Analysis" = none
    ∧ PWGEM.emccuts.GetCut pow "Standard" = none
    ∧ PWGEM.pcmcuts.GetCut "analysis"
        = some
          { name := "analysis", title := "analysis",
            PtRange := some (1 / 100, 10000000000),
            EtaRange := some (-9 / 10, 9 / 10),
            MinNCrossedRowsTPC := some 30,
            MinNCrossedRowsOverFindableClustersTPC := some (6 / 10),
            MaxChi2PerClusterTPC := some 4,
            TPCNsigmaElRange := some (-3, 3),
            RxyKFRange := some (1, 90),
            MaxMeePsiPairDep :=
              some fun psipair => if psipair < 4 / 10 then 6 / 100 else 15 / 1000 }
    ∧ PWGEM.pcmcuts.GetCut "qc"
        = some
          { name := "qc", title := "qc",
            PtRange := some (1 / 100, 10000000000),
            EtaRange := some (-9 / 10, 9 / 10),
            MinNCrossedRowsTPC := some 30,
            MinNCrossedRowsOverFindableClustersTPC := some (6 / 10),
            MaxChi2PerClusterTPC := some 4,
            TPCNsigmaElRange := some (-3, 3),
            RxyKFRange := some (0, 180),
            MaxMeePsiPairDep :=
              some fun psipair => if psipair < 4 / 10 then 6 / 100 else 15 / 1000 }
    ∧ PWGEM.pcmcuts.GetCut "nocut"
        = some
          { name := "nocut", title := "nocut",
            PtRange := some (1 / 100, 10000000000),
            EtaRange := some (-9 / 10, 9 / 10),
            MinNCrossedRowsTPC := some 20,
            MinNCrossedRowsOverFindableClustersTPC := some (6 / 10),
            MaxChi2PerClusterTPC := some 4,
            TPCNsigmaElRange := none,
            RxyKFRange := none,
            MaxMeePsiPairDep := none }
    ∧ PWGEM.emccuts.GetCut pow "standard"
        = some
          { name := "standard", title := "standard",
            mMinE := 7 / 10,
            mMinNCell := 1,
            mMinM02 := 1 / 10,
            mMaxM02 := 7 / 10,
            mMinTime := -20,
            mMaxTime := 25,
            mTrackMatchingEta := some fun pT => 1 / 100 + pow (pT + 407 / 100) (-5 / 2),
            mTrackMatchingPhi := some fun pT => 15 / 1000 + pow (pT + 365 / 100) (-2),
            mMinEoverP := 7 / 4,
            mUseExoticCut := true }
    ∧ PWGEM.emccuts.GetCut pow "nocut"
        = some
          { name := "nocut", title := "nocut",
            mMinE := 0,
            mMinNCell := 1,
            mMinM02 := 0,
            mMaxM02 := 1000,
            mMinTime := -500,
            mMaxTime := 500,
            mTrackMatchingEta := some fun _ => -1,
            mTrackMatchingPhi := some fun _ => -1,
            mMinEoverP := 0,
            mUseExoticCut := false } := by
  refine ⟨?_, ?_, ?_, ?_, ?_, ?_, ?_, ?_, rfl, rfl, rfl, rfl, rfl⟩
  · unfold PWGEM.pcmcuts.GetCut
    simp only
    split_ifs <;> simp_all
  · unfold PWGEM.pcmcuts.GetCut
    simp only
    split_ifs <;> simp_all
  · unfold PWGEM.emccuts.GetCut
    simp only
    split_ifs <;> simp_all
  · unfold PWGEM.emccuts.GetCut
    simp only
    split_ifs <;> simp_all
  · intro cut
    unfold PWGEM.pcmcuts.GetCut
    simp only
    split_ifs with h1 h2 h3
    · rintro ⟨rfl⟩; rfl
    · rintro ⟨rfl⟩; rfl
    · rintro ⟨rfl⟩; rfl
    · intro h; cases h
  · intro cut
    unfold PWGEM.emccuts.GetCut
    simp only
    split_ifs with h1 h2
    · rintro ⟨rfl⟩; rfl
    · rintro ⟨rfl⟩; rfl
    · intro h; cases h
  · unfold PWGEM.pcmcuts.GetCut
    simp only
    rw [if_neg (by decide), if_neg (by decide), if_neg (by decide)]
  · unfold PWGEM.emccuts.GetCut
    simp only
    rw [if_neg (by decide), if_neg (by decide)]

/-- C4. `EMCPhotonCut::IsSelected` returns true for a cluster iff each of the six single cuts
kEnergy, kNCell, kM02, kTiming, kTM and kExotic returns true, also when the single cuts are those
of `IsSelectedEMCal` for a track; and when no single cut throws, the result is the conjunction of
the six, so that it is false as soon as one of them is false. -/
theorem IsSelected_iff_all_six_cuts {T : Type}
    (isSelectedEMCal : T → PWGEM.EMCPhotonCuts → Option Bool) (cluster : T) :
    (PWGEM.EMCPhotonCut.IsSelected isSelectedEMCal cluster = some true
        ↔ ∀ cut ∈ [PWGEM.EMCPhotonCuts.kEnergy, .kNCell, .kM02, .kTiming, .kTM, .kExotic],
            isSelectedEMCal cluster cut = some true)
    ∧ (∀ (self : PWGEM.EMCPhotonCut) (cl : PWGEM.Cluster) (track : PWGEM.Track),
        PWGEM.EMCPhotonCut.IsSelected (fun c cut => self.IsSelectedEMCal c track cut) cl
            = some true
          ↔ ∀ cut ∈ [PWGEM.EMCPhotonCuts.kEnergy, .kNCell, .kM02, .kTiming, .kTM, .kExotic],
              self.IsSelectedEMCal cl track cut = some true)
    ∧ (∀ single : T → PWGEM.EMCPhotonCuts → Bool,
        PWGEM.EMCPhotonCut.IsSelected (fun c cut => some (single c cut)) cluster
          = some (single cluster .kEnergy && single cluster .kNCell && single cluster .kM02
              && single cluster .kTiming && single cluster .kTM && single cluster .kExotic)) := by
  have key : ∀ {U : Type} (sel : U → PWGEM.EMCPhotonCuts → Option Bool) (c : U),
      PWGEM.EMCPhotonCut.IsSelected sel c = some true
        ↔ ∀ cut ∈ [PWGEM.EMCPhotonCuts.kEnergy, .kNCell, .kM02, .kTiming, .kTM, .kExotic],
            sel c cut = some true := by
    intro U sel c
    unfold PWGEM.EMCPhotonCut.IsSelected
    simp only [PWGEM.bind_not_eq_some_true, List.forall_mem_cons, List.not_mem_nil,
      false_implies, implies_true, and_true]
  refine ⟨key isSelectedEMCal cluster, ?_, ?_⟩
  · intro self cl track
    exact key (fun c cut => self.IsSelectedEMCal c track cut) cl
  · intro single
    unfold PWGEM.EMCPhotonCut.IsSelected
    simp only [Option.some_bind]
    cases single cluster .kEnergy <;> cases single cluster .kNCell <;>
      cases single cluster .kM02 <;> cases single cluster .kTiming <;>
      cases single cluster .kTM <;> cases single cluster .kExotic <;> rfl

/-- C5. For every event processed by `NucleiHistTask::fillHistograms` and each of the ten species,
the histogram `histKeepEventData` of the species is filled exactly once, with a value that is 1
iff at least one track of the event passes the track-quality, DCA and rapidity cuts, has the
charge sign of the species and has the TPC n-sigma of the species strictly between
`nsigmacutLow` and `nsigmacutHigh`, and that is 0 otherwise. -/
theorem fillHistograms_keepEvent_filled_once (cfg : NucleiHistTask.Configurables)
    (phys : NucleiHistTask.Physics) (posZ : ℚ) (tracks : List NucleiHistTask.Track)
    (sp : NucleiHistTask.Species) :
    ∃ v : ℚ,
      (NucleiHistTask.fillHistograms cfg phys posZ tracks).filter
          (NucleiHistTask.Fill.isKeepEventOf sp.registry)
        = [⟨sp.registry, .histKeepEventData, [v]⟩]
      ∧ (v = 1 ↔ ∃ track ∈ tracks, NucleiHistTask.keepsEvent cfg phys sp track)
      ∧ (v = 0 ↔ ¬ ∃ track ∈ tracks, NucleiHistTask.keepsEvent cfg phys sp track) := by
  have hflag := NucleiHistTask.foldl_trackLoopBody_keepEvent cfg phys tracks
    { fills := [⟨.spectra, .histRecVtxZData, [posZ]⟩] } sp
  have hinit : NucleiHistTask.LoopState.keepEvent
      { fills := [⟨.spectra, .histRecVtxZData, [posZ]⟩] } sp = false := by
    cases sp <;> rfl
  rw [hinit] at hflag
  simp only [Bool.false_eq_true, false_or] at hflag
  refine ⟨NucleiHistTask.boolValue
    ((tracks.foldl (NucleiHistTask.trackLoopBody cfg phys)
      { fills := [⟨.spectra, .histRecVtxZData, [posZ]⟩] }).keepEvent sp), ?_, ?_, ?_⟩
  · unfold NucleiHistTask.fillHistograms
    simp only [List.filter_append, NucleiHistTask.foldl_trackLoopBody_fills,
      NucleiHistTask.filter_isKeepEventOf_keepEventFills]
    simp [NucleiHistTask.Fill.isKeepEventOf]
  · rw [← hflag]
    unfold NucleiHistTask.boolValue
    split <;> simp_all
  · rw [← hflag]
    unfold NucleiHistTask.boolValue
    split <;> simp_all

/-- C6, the code at a failing input. With `isitMC` true and `processData` the only process
function enabled, `qaMatchEff::init` runs to its end: the first check asks, on the MC side, for
`processData`, `processDataNoColl` and `processTrkIUMC` all at once. In general `init` ends with
the message "Initialization set for MC and processData function flagged (or viceversa)" iff
`isitMC` is false and one of `processMC`, `processMCNoColl`, `processTrkIUMC` is enabled, or
`isitMC` is true and `processData`, `processDataNoColl`, `processTrkIUMC` are all enabled. -/
theorem qaMatchEff_init_mode_mismatch_check :
    (∃ st, QaMatchEff.init
        { isitMC := true, doprocessData := true, doprocessDataNoColl := false } = Except.ok st)
    ∧ (∀ cfg : QaMatchEff.Configurables,
        QaMatchEff.init cfg = Except.error QaMatchEff.msgModeMismatch
          ↔ (cfg.isitMC = false
              ∧ (cfg.doprocessMC = true ∨ cfg.doprocessMCNoColl = true
                ∨ cfg.doprocessTrkIUMC = true))
            ∨ (cfg.isitMC = true ∧ cfg.doprocessData = true ∧ cfg.doprocessDataNoColl = true
                ∧ cfg.doprocessTrkIUMC = true)) := by
  constructor
  · exact ⟨_, rfl⟩
  · intro cfg
    have hne1 : QaMatchEff.msgBothCollisionTags ≠ QaMatchEff.msgModeMismatch := by decide
    have hne2 : "No DCA for IU tracks. Put makethn = false." ≠ QaMatchEff.msgModeMismatch := by
      decide
    unfold QaMatchEff.init
    simp only
    split_ifs with h1 h2 h3 h4 h5
    · simp only [QaMatchEff.msgModeMismatch, true_iff]
      revert h1
      cases cfg.isitMC <;> cases cfg.doprocessMC <;> cases cfg.doprocessMCNoColl <;>
        cases cfg.doprocessTrkIUMC <;> cases cfg.doprocessData <;>
        cases cfg.doprocessDataNoColl <;> simp
    all_goals
      revert h1
      cases cfg.isitMC <;> cases cfg.doprocessMC <;> cases cfg.doprocessMCNoColl <;>
        cases cfg.doprocessTrkIUMC <;> cases cfg.doprocessData <;>
        cases cfg.doprocessDataNoColl <;>
        simp [← QaMatchEff.msgBothCollisionTags.eq_def, hne1, hne2]

/-- C7, the code at two failing inputs. With `isitMC` true and `processMC`, `processMCNoColl`
the only process functions enabled, and also with the default configuration (`processData` and
`processDataNoColl` enabled), `qaMatchEff::init` runs to its end: the second check asks for the
IU-track process function as a third. In general `init` ends with the message "Cannot process for
both without collision tag and with collision tag at the same time" iff the first check does not
fire and `processMC`, `processMCNoColl`, `processTrkIUMC` are all enabled or `processData`,
`processDataNoColl`, `processTrkIUData` are all enabled. -/
theorem qaMatchEff_init_collision_tag_check :
    (∃ st, QaMatchEff.init
        { isitMC := true, doprocessMC := true, doprocessMCNoColl := true,
          doprocessData := false, doprocessDataNoColl := false } = Except.ok st)
    ∧ (∃ st, QaMatchEff.init {} = Except.ok st)
    ∧ (∀ cfg : QaMatchEff.Configurables,
        QaMatchEff.init cfg = Except.error QaMatchEff.msgBothCollisionTags
          ↔ ¬ ((cfg.isitMC = false
                ∧ (cfg.doprocessMC = true ∨ cfg.doprocessMCNoColl = true
                  ∨ cfg.doprocessTrkIUMC = true))
              ∨ (cfg.isitMC = true ∧ cfg.doprocessData = true
                ∧ cfg.doprocessDataNoColl = true ∧ cfg.doprocessTrkIUMC = true))
            ∧ ((cfg.doprocessMC = true ∧ cfg.doprocessMCNoColl = true
                ∧ cfg.doprocessTrkIUMC = true)
              ∨ (cfg.doprocessData = true ∧ cfg.doprocessDataNoColl = true
                ∧ cfg.doprocessTrkIUData = true))) := by
  refine ⟨⟨_, rfl⟩, ⟨_, rfl⟩, ?_⟩
  intro cfg
  have hne1 : QaMatchEff.msgModeMismatch ≠ QaMatchEff.msgBothCollisionTags := by decide
  have hne2 : "No DCA for IU tracks. Put makethn = false." ≠ QaMatchEff.msgBothCollisionTags := by
    decide
  unfold QaMatchEff.init
  simp only
  split_ifs with h1 h2 h3 h4 h5
  all_goals
    revert h1
    try revert h2
    cases cfg.isitMC <;> cases cfg.doprocessMC <;> cases cfg.doprocessMCNoColl <;>
      cases cfg.doprocessTrkIUMC <;> cases cfg.doprocessData <;>
      cases cfg.doprocessDataNoColl <;> cases cfg.doprocessTrkIUData <;>
      simp [← QaMatchEff.msgModeMismatch.eq_def, ← QaMatchEff.msgBothCollisionTags.eq_def,
        hne1, hne2]

/-- C8. `NucleiHistTask::init` ends with a fatal error iff `processData` and `processDataCent`
are both enabled; with at most one of them enabled it completes and books the histograms: the
twelve of `spectra` and fifteen for each of the ten species, `histKeepEventData` among them. -/
theorem NucleiHistTask_init_fatal_iff_both_enabled (cfg : NucleiHistTask.Configurables) :
    ((∃ msg, NucleiHistTask.init cfg = Except.error msg)
        ↔ cfg.doprocessData = true ∧ cfg.doprocessDataCent = true)
    ∧ (NucleiHistTask.init cfg = Except.ok NucleiHistTask.bookedHistograms
        ↔ ¬ (cfg.doprocessData = true ∧ cfg.doprocessDataCent = true))
    ∧ NucleiHistTask.bookedHistograms.length = 162
    ∧ (∀ sp : NucleiHistTask.Species,
        (sp.registry, NucleiHistTask.Hist.histKeepEventData)
          ∈ NucleiHistTask.bookedHistograms) := by
  refine ⟨?_, ?_, ?_, ?_⟩
  rotate_left 2
  · simp [NucleiHistTask.bookedHistograms, NucleiHistTask.spectraHists,
      NucleiHistTask.speciesHists, NucleiHistTask.speciesRegistries]
  rotate_left 1
  · unfold NucleiHistTask.init
    cases cfg.doprocessData <;> cases cfg.doprocessDataCent <;> simp
  · unfold NucleiHistTask.init
    cases cfg.doprocessData <;> cases cfg.doprocessDataCent <;> simp
  · intro sp
    cases sp <;> decide

/-- C9, counterexample. The two-file overload passes over the directory `DF_1`, which has neither
tree in either file, without logging anything: the only line of output is the count. -/
theorem checkBCRange_missing_tree_logged_counterexample :
    CheckBCRange.checkBCRangeWithRangeFile
        [⟨"DF_1", .directory none none⟩, ⟨"DF_2", .directory none (some [⟨15, 1⟩, ⟨25, 1⟩])⟩]
        [⟨"DF_1", .directory none none⟩, ⟨"DF_2", .directory (some [⟨10, 20⟩]) none⟩]
      = [CheckBCRange.Line.coutFound 1 2]
    ∧ CheckBCRange.Line.cerrMissingTrees "DF_1" ∉
        CheckBCRange.checkBCRangeWithRangeFile
          [⟨"DF_1", .directory none none⟩, ⟨"DF_2", .directory none (some [⟨15, 1⟩, ⟨25, 1⟩])⟩]
          [⟨"DF_1", .directory none none⟩, ⟨"DF_2", .directory (some [⟨10, 20⟩]) none⟩] := by
  decide

/-- C9, amended. A directory that lacks a required tree is skipped in both overloads, and the
other directories are processed as if it were not in the file. In the one-file overload a key
without `O2bcranges` or without `O2cefpdecision` prints the error line in its place and nothing
else. In the two-file overload a key of the range file that is no directory or has no
`O2bcranges`, and a key of the input file without `O2cefpdecision`, leave the output as it is
without them; this overload logs nothing. -/
theorem checkBCRange_missing_tree_skipped (pre post : CheckBCRange.TFile)
    (k1 k2 k3 : CheckBCRange.Key)
    (h1 : k1.getRanges = none ∨ k1.getDecision = none)
    (h2 : k2.isDirectory = false ∨ k2.getRanges = none)
    (h3 : k3.getDecision = none) :
    (CheckBCRange.checkBCRange (pre ++ k1 :: post)
        = CheckBCRange.checkBCRange pre
            ++ CheckBCRange.Line.cerrMissingTrees k1.name :: CheckBCRange.checkBCRange post
      ∧ CheckBCRange.checkBCRange (pre ++ post)
        = CheckBCRange.checkBCRange pre ++ CheckBCRange.checkBCRange post)
    ∧ (∀ inputFile : CheckBCRange.TFile,
        CheckBCRange.checkBCRangeWithRangeFile inputFile (pre ++ k2 :: post)
          = CheckBCRange.checkBCRangeWithRangeFile inputFile (pre ++ post))
    ∧ (∀ rangeFile : CheckBCRange.TFile,
        CheckBCRange.checkBCRangeWithRangeFile (pre ++ k3 :: post) rangeFile
          = CheckBCRange.checkBCRangeWithRangeFile (pre ++ post) rangeFile)
    ∧ (∀ (inputFile rangeFile : CheckBCRange.TFile) (dirName : String),
        CheckBCRange.Line.cerrMissingTrees dirName ∉
          CheckBCRange.checkBCRangeWithRangeFile inputFile rangeFile) := by
  refine ⟨⟨?_, ?_⟩, ?_, ?_, ?_⟩
  · simp only [CheckBCRange.checkBCRange_eq_map, List.map_append, List.map_cons]
    congr 2
    rcases h1 with h | h
    · rw [h]
    · rw [h]
      cases k1.getRanges <;> rfl
  · simp only [CheckBCRange.checkBCRange_eq_map, List.map_append]
  · intro inputFile
    have hk : CheckBCRange.rangeEntries (pre ++ k2 :: post)
        = CheckBCRange.rangeEntries (pre ++ post) := by
      unfold CheckBCRange.rangeEntries
      rw [List.flatMap_append, List.flatMap_append, List.flatMap_cons]
      rcases h2 with h | h
      · simp [h]
      · simp [h]
    rw [CheckBCRange.checkBCRangeWithRangeFile_eq, CheckBCRange.checkBCRangeWithRangeFile_eq, hk]
  · intro rangeFile
    have hk : CheckBCRange.decisionEntries (pre ++ k3 :: post)
        = CheckBCRange.decisionEntries (pre ++ post) := by
      unfold CheckBCRange.decisionEntries
      rw [List.flatMap_append, List.flatMap_append, List.flatMap_cons]
      simp [h3]
    rw [CheckBCRange.checkBCRangeWithRangeFile_eq, CheckBCRange.checkBCRangeWithRangeFile_eq, hk]
  · intro inputFile rangeFile dirName
    simp [CheckBCRange.checkBCRangeWithRangeFile]

/-- Witness for C9 (amended): the key `metaData`, which is no directory, between two directories
that have both trees. -/
theorem checkBCRange_missing_tree_skipped_witness :
    CheckBCRange.checkBCRange
        ([⟨"DF_1", .directory (some [⟨10, 20⟩]) (some [⟨15, 1⟩])⟩]
          ++ ⟨"metaData", .other⟩ :: [⟨"DF_2", .directory (some []) (some [⟨7, 1⟩])⟩])
      = [CheckBCRange.Line.coutFound 0 1, CheckBCRange.Line.cerrMissingTrees "metaData",
          CheckBCRange.Line.coutFound 1 1] :=
  (checkBCRange_missing_tree_skipped
      [⟨"DF_1", .directory (some [⟨10, 20⟩]) (some [⟨15, 1⟩])⟩]
      [⟨"DF_2", .directory (some []) (some [⟨7, 1⟩])⟩]
      ⟨"metaData", .other⟩ ⟨"metaData", .other⟩ ⟨"metaData", .other⟩
      (Or.inl rfl) (Or.inl rfl) rfl).1.1.trans (by decide)

/-- C10, a counterexample to the claim. The track-matching functions are constant 0.1 and
`mMinEoverP` is 1.75. A cluster of energy 2 paired with a track of momentum 1 at the same eta and
phi is inside both windows and has E/p = 2, at least `mMinEoverP`: the code returns true, the
cluster survives, where the claim says false. The same pair with cluster energy 1 has
E/p = 1, below `mMinEoverP`: the code returns false, where the claim says true. -/
theorem IsSelectedEMCal_kTM_survives_at_high_EoverP :
    ((PWGEM.dEta
          { e := 2, nCells := 2, m02 := 1 / 2, time := 0, eta := 0, phi := 0, isExotic := false }
          { tracketa := 0, trackphi := 0, trackpt := 1, trackp := 1 }).gt (1 / 10) = false
      ∧ (PWGEM.dPhi
          { e := 2, nCells := 2, m02 := 1 / 2, time := 0, eta := 0, phi := 0, isExotic := false }
          { tracketa := 0, trackphi := 0, trackpt := 1, trackp := 1 }).gt (1 / 10) = false
      ∧ (PWGEM.F32.div 2 1).ge (7 / 4) = true
      ∧ PWGEM.EMCPhotonCut.IsSelectedEMCal
          { name := "tm", title := "tm", mMinEoverP := 7 / 4,
            mTrackMatchingEta := some (fun _ => 1 / 10),
            mTrackMatchingPhi := some (fun _ => 1 / 10) }
          { e := 2, nCells := 2, m02 := 1 / 2, time := 0, eta := 0, phi := 0, isExotic := false }
          { tracketa := 0, trackphi := 0, trackpt := 1, trackp := 1 }
          .kTM = some true)
    ∧ ((PWGEM.F32.div 1 1).ge (7 / 4) = false
      ∧ PWGEM.EMCPhotonCut.IsSelectedEMCal
          { name := "tm", title := "tm", mMinEoverP := 7 / 4,
            mTrackMatchingEta := some (fun _ => 1 / 10),
            mTrackMatchingPhi := some (fun _ => 1 / 10) }
          { e := 1, nCells := 2, m02 := 1 / 2, time := 0, eta := 0, phi := 0, isExotic := false }
          { tracketa := 0, trackphi := 0, trackpt := 1, trackp := 1 }
          .kTM = some false) := by
  refine ⟨⟨?_, ?_, ?_, ?_⟩, ?_, ?_⟩ <;>
    norm_num [PWGEM.EMCPhotonCut.IsSelectedEMCal, PWGEM.EMCPhotonCut.trackMatching,
      PWGEM.callFunction, PWGEM.dEta, PWGEM.dPhi, PWGEM.F32.sub, PWGEM.F32.div, PWGEM.F32.abs,
      PWGEM.F32.gt, PWGEM.F32.ge, PWGEM.round32, PWGEM.binade, PWGEM.roundHalfEven, Nat.log2]

/-- C10, amended. With both track-matching functions set, `IsSelectedEMCal` with kTM returns
false exactly when the binary32 distance in eta is not above `mTrackMatchingEta(pT)`, the one
in phi is not above `mTrackMatchingPhi(pT)`, and the binary32 ratio E/p is not at least
`mMinEoverP`; in every other case it returns true, so a pair inside both windows survives
exactly when E/p reaches `mMinEoverP`. A track of momentum zero paired with a cluster of
positive energy has the ratio +infinity and the cluster survives. The cut "nocut" of the cut
library, with both functions constant -1, lets every pair survive. The ratio is the binary32
quotient: that of 1 and 3 is 11184811 / 2 ^ 25, which reaches a minimum of this value although
the exact quotient 1/3 lies below it. -/
theorem IsSelectedEMCal_kTM_false_iff_matched_and_low_EoverP (self : PWGEM.EMCPhotonCut)
    (cluster : PWGEM.Cluster) (track : PWGEM.Track) (etaMax phiMax : ℚ → ℚ)
    (hEta : self.mTrackMatchingEta = some etaMax)
    (hPhi : self.mTrackMatchingPhi = some phiMax) :
    (self.IsSelectedEMCal cluster track .kTM = some false
        ↔ (PWGEM.dEta cluster track).gt (etaMax track.trackpt) = false
          ∧ (PWGEM.dPhi cluster track).gt (phiMax track.trackpt) = false
          ∧ (PWGEM.F32.div cluster.e track.trackp).ge self.mMinEoverP = false)
    ∧ (self.IsSelectedEMCal cluster track .kTM = some true
        ↔ ¬ ((PWGEM.dEta cluster track).gt (etaMax track.trackpt) = false
          ∧ (PWGEM.dPhi cluster track).gt (phiMax track.trackpt) = false
          ∧ (PWGEM.F32.div cluster.e track.trackp).ge self.mMinEoverP = false))
    ∧ ((PWGEM.dEta cluster track).gt (etaMax track.trackpt) = false
        → (PWGEM.dPhi cluster track).gt (phiMax track.trackpt) = false
        → (self.IsSelectedEMCal cluster track .kTM = some true
            ↔ (PWGEM.F32.div cluster.e track.trackp).ge self.mMinEoverP = true))
    ∧ (track.trackp = 0 → 0 < cluster.e
        → self.IsSelectedEMCal cluster track .kTM = some true)
    ∧ (∀ (pow : ℚ → ℚ → ℚ) (cut : PWGEM.EMCPhotonCut),
        PWGEM.emccuts.GetCut pow "nocut" = some cut
          → cut.IsSelectedEMCal cluster track .kTM = some true)
    ∧ (PWGEM.F32.div 1 3 = .finite (11184811 / 33554432)
        ∧ (PWGEM.F32.div 1 3).ge (11184811 / 33554432) = true) := by
  have hthird : PWGEM.F32.div 1 3 = .finite (11184811 / 33554432) := by
    unfold PWGEM.F32.div
    rw [if_neg (by norm_num)]
    norm_num [PWGEM.round32_third]
  refine ⟨?_, ?_, ?_, ?_, ?_, hthird, by rw [hthird]; simp [PWGEM.F32.ge]⟩ <;>
    try rw [PWGEM.IsSelectedEMCal_kTM_eq self cluster track etaMax phiMax hEta hPhi]
  · cases (PWGEM.dEta cluster track).gt (etaMax track.trackpt) <;>
      cases (PWGEM.dPhi cluster track).gt (phiMax track.trackpt) <;>
      cases (PWGEM.F32.div cluster.e track.trackp).ge self.mMinEoverP <;> simp
  · cases (PWGEM.dEta cluster track).gt (etaMax track.trackpt) <;>
      cases (PWGEM.dPhi cluster track).gt (phiMax track.trackpt) <;>
      cases (PWGEM.F32.div cluster.e track.trackp).ge self.mMinEoverP <;> simp
  · intro h1 h2
    rw [h1, h2]
    simp
  · intro hp he
    have hdiv : PWGEM.F32.div cluster.e track.trackp = .posInf := by
      unfold PWGEM.F32.div
      rw [if_pos hp, if_pos he]
    rw [hdiv]
    simp [PWGEM.F32.ge]
  · intro pow cut hcut
    have hnocut : PWGEM.emccuts.GetCut pow "nocut"
        = some
          { name := "nocut", title := "nocut", mMinE := 0, mMinNCell := 1, mMinM02 := 0,
            mMaxM02 := 1000, mMinTime := -500, mMaxTime := 500,
            mTrackMatchingEta := some fun _ => -1, mTrackMatchingPhi := some fun _ => -1,
            mMinEoverP := 0, mUseExoticCut := false } := rfl
    rw [hnocut] at hcut
    cases hcut
    rw [PWGEM.IsSelectedEMCal_kTM_eq _ cluster track (fun _ => -1) (fun _ => -1) rfl rfl]
    have hEtaGt : (PWGEM.dEta cluster track).gt (-1) = true :=
      PWGEM.F32.abs_round32_gt_of_neg _ _ (by norm_num)
    rw [hEtaGt]
    simp

/-- Witness for C10, amended: inside both windows with E/p = 1 below `mMinEoverP = 1.75` the
cluster is rejected. -/
theorem IsSelectedEMCal_kTM_false_iff_matched_and_low_EoverP_witness :
    PWGEM.EMCPhotonCut.IsSelectedEMCal
        { name := "tm", title := "tm", mMinEoverP := 7 / 4,
          mTrackMatchingEta := some (fun _ => 1 / 10),
          mTrackMatchingPhi := some (fun _ => 1 / 10) }
        { e := 1, nCells := 2, m02 := 1 / 2, time := 0, eta := 0, phi := 0, isExotic := false }
        { tracketa := 0, trackphi := 0, trackpt := 1, trackp := 1 }
        .kTM = some false :=
  (IsSelectedEMCal_kTM_false_iff_matched_and_low_EoverP
      { name := "tm", title := "tm", mMinEoverP := 7 / 4,
        mTrackMatchingEta := some (fun _ => 1 / 10),
        mTrackMatchingPhi := some (fun _ => 1 / 10) }
      { e := 1, nCells := 2, m02 := 1 / 2, time := 0, eta := 0, phi := 0, isExotic := false }
      { tracketa := 0, trackphi := 0, trackpt := 1, trackp := 1 }
      (fun _ => 1 / 10) (fun _ => 1 / 10) rfl rfl).1.2
    ⟨by norm_num [PWGEM.dEta, PWGEM.F32.sub, PWGEM.F32.abs, PWGEM.F32.gt, PWGEM.round32],
      by norm_num [PWGEM.dPhi, PWGEM.F32.sub, PWGEM.F32.abs, PWGEM.F32.gt, PWGEM.round32],
      by norm_num [PWGEM.F32.div, PWGEM.F32.ge, PWGEM.round32, PWGEM.binade,
        PWGEM.roundHalfEven, Nat.log2]⟩

/-- C11, the code on the exotic cut. `IsSelectedEMCal` with kExotic returns true for every
cluster when `mUseExoticCut` is false; when `mUseExoticCut` is true it returns the exotic flag of
the cluster itself, so an exotic cluster survives (true) and a cluster that is not exotic is
rejected (false). -/
theorem IsSelectedEMCal_kExotic_returns_exotic_flag :
    (∀ (self : PWGEM.EMCPhotonCut) (cluster : PWGEM.Cluster) (track : PWGEM.Track),
        self.IsSelectedEMCal cluster track .kExotic
          = some (if self.mUseExoticCut then cluster.isExotic else true))
    ∧ PWGEM.EMCPhotonCut.IsSelectedEMCal { name := "exotic", title := "exotic" }
        { e := 1, nCells := 2, m02 := 1 / 2, time := 0, eta := 0, phi := 0, isExotic := true }
        { tracketa := 1, trackphi := 1, trackpt := 1, trackp := 1 } .kExotic = some true
    ∧ PWGEM.EMCPhotonCut.IsSelectedEMCal { name := "exotic", title := "exotic" }
        { e := 1, nCells := 2, m02 := 1 / 2, time := 0, eta := 0, phi := 0, isExotic := false }
        { tracketa := 1, trackphi := 1, trackpt := 1, trackp := 1 } .kExotic = some false :=
  ⟨fun _ _ _ => rfl, rfl, rfl⟩

/-- C13. With `b_useTrackSelections` false, `isTrackSelectedKineCuts`, `isTrackSelectedTPCCuts`
and `isTrackSelectedITSCuts` return true for every track, whatever the other settings, the cut
object and the answers of `TrackSelection::IsSelected` are. -/
theorem isTrackSelected_true_without_track_selections (cfg : QaMatchEff.Configurables)
    (ext : QaMatchEff.Externals) (cutObject : QaMatchEff.TrackSelection)
    (track : QaMatchEff.Track) :
    QaMatchEff.isTrackSelectedKineCuts { cfg with b_useTrackSelections := false } ext cutObject
        track = true
    ∧ QaMatchEff.isTrackSelectedTPCCuts { cfg with b_useTrackSelections := false } ext
        cutObject track = true
    ∧ QaMatchEff.isTrackSelectedITSCuts { cfg with b_useTrackSelections := false } ext
        cutObject track = true :=
  ⟨rfl, rfl, rfl⟩

/-- C17. The set of required ITS layers that `qaMatchEff::init` builds holds layer `i` iff
`i ≤ 6` and bit `i` of `customITShitmap` is set: it is the list of the layers 0 to 6 with a set
bit, in increasing order, so that its size is the number of set bits among bits 0 to 6 and the
bits above bit 6 play no part. The default value 3 gives the layers 0 and 1. When track
selections are enabled and `init` completes, the cut object requires `customMinITShits` hits in
exactly this set. -/
theorem init_requires_hits_in_hitmap_layers (cfg : QaMatchEff.Configurables)
    (st : QaMatchEff.InitState) (hsel : cfg.b_useTrackSelections = true)
    (hok : QaMatchEff.init cfg = Except.ok st) :
    st.cutObject.RequireHitsInITSLayers
        = some (cfg.customMinITShits,
            (List.range 7).filter (fun i => cfg.customITShitmap.testBit i))
    ∧ QaMatchEff.set_customITShitmap cfg
        = (List.range 7).filter (fun i => cfg.customITShitmap.testBit i)
    ∧ (∀ i, i ∈ QaMatchEff.set_customITShitmap cfg
        ↔ i ≤ 6 ∧ cfg.customITShitmap.testBit i = true)
    ∧ (QaMatchEff.set_customITShitmap cfg).Nodup
    ∧ (QaMatchEff.set_customITShitmap cfg).length
        = ((List.range 7).filter (fun i => cfg.customITShitmap.testBit i)).length
    ∧ QaMatchEff.set_customITShitmap {} = [0, 1] := by
  have hset := QaMatchEff.set_customITShitmap_eq cfg
  refine ⟨?_, hset, ?_, ?_, by rw [hset], ?_⟩
  · unfold QaMatchEff.init at hok
    simp only [hsel, if_true] at hok
    split_ifs at hok <;>
      · injection hok with hst
        rw [← hst, hset]
  · intro i
    rw [hset, List.mem_filter, List.mem_range]
    constructor
    · rintro ⟨h1, h2⟩
      exact ⟨by omega, h2⟩
    · rintro ⟨h1, h2⟩
      exact ⟨by omega, h2⟩
  · rw [hset]
    exact (List.nodup_range 7).filter _
  · rw [QaMatchEff.set_customITShitmap_eq]
    decide

/-- Witness for C17: the hitmap 67 (bits 0, 1 and 6) with the track selections enabled and the
other settings at their defaults. -/
theorem init_requires_hits_in_hitmap_layers_witness :
    QaMatchEff.set_customITShitmap { b_useTrackSelections := true, customITShitmap := 67 }
      = [0, 1, 6] :=
  ((init_requires_hits_in_hitmap_layers
      { b_useTrackSelections := true, customITShitmap := 67 } _ rfl rfl).2.1).trans
    (by decide)

/-- C20. In `NucleiHistTask::fillHistograms` a track that fails one of the track-quality cuts
(`tpcNClsFound ≥ minTPCnClsFound`, `tpcNClsCrossedRows ≥ minNCrossedRowsTPC`, crossed rows over
findable within `[minRatioCrossedRowsTPC, maxRatioCrossedRowsTPC]`, `tpcChi2NCl ≤ maxChi2TPC`,
`itsChi2NCl ≤ maxChi2ITS`, TPC refit, ITS refit, `itsNCls ≥ minReqClusterITS`, PV contributor)
or one of the DCA cuts (`|dcaXY| ≤ maxDCA_XY`, `|dcaZ| ≤ maxDCA_Z`) sets no keep-event flag and
fills no histogram of a species registry; a flag that a track sets is set by a track that
passes all of them, values equal to a threshold included. -/
theorem trackLoopBody_needs_quality_and_dca_cuts (cfg : NucleiHistTask.Configurables)
    (phys : NucleiHistTask.Physics) (s : NucleiHistTask.LoopState)
    (track : NucleiHistTask.Track)
    (hfail : ¬ (NucleiHistTask.passesTrackQuality cfg track
      ∧ NucleiHistTask.passesDCA cfg track)) :
    (∀ sp : NucleiHistTask.Species,
        (NucleiHistTask.trackLoopBody cfg phys s track).keepEvent sp = s.keepEvent sp)
    ∧ (NucleiHistTask.trackLoopBody cfg phys s track).fills.filter
          (fun f => f.registry != NucleiHistTask.Registry.spectra)
        = s.fills.filter (fun f => f.registry != NucleiHistTask.Registry.spectra) := by
  rw [← NucleiHistTask.failsTrackCuts_eq_false_iff, ← NucleiHistTask.failsDCACuts_eq_false_iff]
    at hfail
  unfold NucleiHistTask.trackLoopBody
  by_cases h1 : NucleiHistTask.failsTrackCuts cfg track = true
  · rw [if_pos h1]
    exact ⟨fun _ => rfl, rfl⟩
  · rw [if_neg h1]
    have h2 : NucleiHistTask.failsDCACuts cfg track = true := by
      rw [Bool.not_eq_true] at h1
      cases hd : NucleiHistTask.failsDCACuts cfg track
      · exact absurd ⟨h1, hd⟩ hfail
      · rfl
    simp only [h2, if_true]
    refine ⟨fun sp => by cases sp <;> rfl, ?_⟩
    rw [List.filter_append, NucleiHistTask.filter_not_spectra_dcaFills, List.append_nil]

/-- Witness for C20: a track with five TPC chi2 per cluster, above the default maximum of four,
between no other tracks; every other value is at its threshold or inside it. -/
theorem trackLoopBody_needs_quality_and_dca_cuts_witness :
    (NucleiHistTask.trackLoopBody {}
        { Rapidity := fun _ eta _ _ => eta, MassProton := 1, MassDeuteron := 2, MassTriton := 3,
          MassHelium3 := 3, MassAlpha := 4 }
        {}
        { tpcNClsFound := 0, tpcNClsCrossedRows := 70, tpcCrossedRowsOverFindableCls := 1,
          tpcChi2NCl := 5, itsChi2NCl := 36, passedTPCRefit := true, passedITSRefit := true,
          itsNCls := 1, isPVContributor := true, sign := 1, pt := 1, eta := 0, phi := 0,
          dcaXY := 1 / 2, dcaZ := 2, tpcInnerParam := 1, tpcSignal := 50, tpcNSigmaPr := 0,
          tpcNSigmaDe := 0, tpcNSigmaTr := 0, tpcNSigmaHe := 0, tpcNSigmaAl := 0,
          tofNSigmaPr := 0, tofNSigmaDe := 0, tofNSigmaTr := 0, tofNSigmaHe := 0,
          tofNSigmaAl := 0, hasTOF := false, mass := 1, beta := 1 }).keepEvent .p = false :=
  (trackLoopBody_needs_quality_and_dca_cuts {} _ {} _
      (by norm_num [NucleiHistTask.passesTrackQuality])).1 .p

/-- C14. For every MC track, every fill of `MC/thnsforfrac` that the track makes carries as type
value (fifth entry) 0 if the MC particle is a physical primary, 1 if it is not and its process
code is 4, and 2 otherwise; the value lies in {0, 1, 2}. The iteration completes whenever the
PDG code is not zero, and it fills `MC/thnsforfrac` when the track passes the TRD requirement
and the kinematic selection and `makethn` is set. -/
theorem thnsforfrac_type_value (cfg : QaMatchEff.Configurables) (ext : QaMatchEff.Externals)
    (cutObject : QaMatchEff.TrackSelection) (s : QaMatchEff.LoopState)
    (track : QaMatchEff.Track) (mcpart : QaMatchEff.McParticle)
    (hmc : track.mcParticle = some mcpart) :
    (∀ s', QaMatchEff.trackLoopBody cfg ext cutObject true s track = some s' →
        ∃ new, s'.fills = s.fills ++ new
          ∧ (∀ f ∈ new, f.hist = "MC/thnsforfrac" →
              f.values[4]? = some
                (if mcpart.isPhysicalPrimary = true then 0
                  else if mcpart.getProcess = 4 then 1 else 2))
          ∧ (QaMatchEff.reachesFills cfg ext cutObject track = true → cfg.makethn = true →
              ∃ f ∈ new, f.hist = "MC/thnsforfrac"))
    ∧ (mcpart.pdgCode ≠ 0 →
        ∃ s', QaMatchEff.trackLoopBody cfg ext cutObject true s track = some s')
    ∧ (QaMatchEff.sayPrim mcpart = 0 ∨ QaMatchEff.sayPrim mcpart = 1
        ∨ QaMatchEff.sayPrim mcpart = 2) := by
  refine ⟨?_, ?_, ?_⟩
  · intro s' hbody
    obtain ⟨new, hnew, hthn⟩ :=
      QaMatchEff.trackLoopBody_mc_thnsforfrac cfg ext cutObject s s' track mcpart hmc hbody
    refine ⟨new, hnew, ?_, ?_⟩
    · intro f hf hname
      obtain ⟨_, rfl⟩ := QaMatchEff.mem_of_filter_eq_singleton hthn hf (by simp [hname])
      simp only [QaMatchEff.sayPrim]
      cases mcpart.isPhysicalPrimary <;> by_cases hp : mcpart.getProcess = 4 <;> simp [hp]
    · intro hreach hthnOn
      obtain ⟨h1, h2⟩ := QaMatchEff.exists_of_filter_eq_singleton hthn ⟨hreach, hthnOn⟩
      exact ⟨_, h1, by simp⟩
  · intro hpdg
    obtain ⟨s', _, h, _⟩ := QaMatchEff.trackLoopBody_mc cfg ext cutObject s track mcpart hmc hpdg
    exact ⟨s', h⟩
  · unfold QaMatchEff.sayPrim
    split_ifs <;> simp

/-- Witness for C14: a pion from a decay (process 4), not a physical primary, with `makethn`
set; the iteration completes and fills `MC/thnsforfrac` with the type value 1. -/
theorem thnsforfrac_type_value_witness :
    ∃ s' new f, QaMatchEff.trackLoopBody { makethn := true }
        { IsSelected := fun _ _ _ => true, sqrt := fun x => x, PI := 3, TwoPI := 6 } {} true {}
        { hasTRD := false, mcParticle := some ⟨211, false, 4, 0, 1⟩, pt := 1,
          tpcInnerParam := 1, tgl := 0, dcaXY := 0, phi := 1, eta := 0, signed1Pt := 1,
          hasTPC := true, hasITS := true, itsClusterMap := 3 } = some s'
      ∧ s'.fills = [] ++ new ∧ f ∈ new ∧ f.hist = "MC/thnsforfrac" ∧ f.values[4]? = some 1 := by
  have h := thnsforfrac_type_value { makethn := true }
    { IsSelected := fun _ _ _ => true, sqrt := fun x => x, PI := 3, TwoPI := 6 } {} {}
    { hasTRD := false, mcParticle := some ⟨211, false, 4, 0, 1⟩, pt := 1,
      tpcInnerParam := 1, tgl := 0, dcaXY := 0, phi := 1, eta := 0, signed1Pt := 1,
      hasTPC := true, hasITS := true, itsClusterMap := 3 }
    ⟨211, false, 4, 0, 1⟩ rfl
  obtain ⟨s', hs'⟩ := h.2.1 (by decide)
  obtain ⟨new, hnew, hval, hex⟩ := h.1 s' hs'
  obtain ⟨f, hf, hname⟩ := hex (by decide) rfl
  exact ⟨s', new, f, hs', hnew, hf, hname, by simpa using hval f hf hname⟩

/-- C15. For every MC track, every fill of `MC/thnsforfrac` that the track makes carries as
species index (seventh entry) 1, 2, 3, 4 when the absolute PDG code is 11, 211, 321, 2212, and 5
for every other PDG code; the index lies in 1..5, inside the axis range [0.5, 5.5]. The
iteration completes whenever the PDG code is not zero, and it fills `MC/thnsforfrac` when the
track passes the TRD requirement and the kinematic selection and `makethn` is set. -/
theorem thnsforfrac_species_index (cfg : QaMatchEff.Configurables)
    (ext : QaMatchEff.Externals) (cutObject : QaMatchEff.TrackSelection)
    (s : QaMatchEff.LoopState) (track : QaMatchEff.Track) (mcpart : QaMatchEff.McParticle)
    (hmc : track.mcParticle = some mcpart) :
    (∀ s', QaMatchEff.trackLoopBody cfg ext cutObject true s track = some s' →
        ∃ new, s'.fills = s.fills ++ new
          ∧ (∀ f ∈ new, f.hist = "MC/thnsforfrac" →
              f.values[6]? = some
                (if |mcpart.pdgCode| = 11 then 1
                  else if |mcpart.pdgCode| = 211 then 2
                  else if |mcpart.pdgCode| = 321 then 3
                  else if |mcpart.pdgCode| = 2212 then 4 else 5))
          ∧ (QaMatchEff.reachesFills cfg ext cutObject track = true → cfg.makethn = true →
              ∃ f ∈ new, f.hist = "MC/thnsforfrac"))
    ∧ (mcpart.pdgCode ≠ 0 →
        ∃ s', QaMatchEff.trackLoopBody cfg ext cutObject true s track = some s')
    ∧ (1 ≤ QaMatchEff.specind |mcpart.pdgCode| ∧ QaMatchEff.specind |mcpart.pdgCode| ≤ 5)
    ∧ ((1 / 2 : ℚ) ≤ QaMatchEff.specind |mcpart.pdgCode|
        ∧ (QaMatchEff.specind |mcpart.pdgCode| : ℚ) ≤ 11 / 2) := by
  have hrange : 1 ≤ QaMatchEff.specind |mcpart.pdgCode|
      ∧ QaMatchEff.specind |mcpart.pdgCode| ≤ 5 := by
    unfold QaMatchEff.specind
    split_ifs <;> simp
  refine ⟨?_, ?_, hrange, ?_⟩
  · intro s' hbody
    obtain ⟨new, hnew, hthn⟩ :=
      QaMatchEff.trackLoopBody_mc_thnsforfrac cfg ext cutObject s s' track mcpart hmc hbody
    refine ⟨new, hnew, ?_, ?_⟩
    · intro f hf hname
      obtain ⟨_, rfl⟩ := QaMatchEff.mem_of_filter_eq_singleton hthn hf (by simp [hname])
      simp only [QaMatchEff.specind_Abs]
      simp only [QaMatchEff.specind]
      split_ifs <;> simp
    · intro hreach hthnOn
      obtain ⟨h1, h2⟩ := QaMatchEff.exists_of_filter_eq_singleton hthn ⟨hreach, hthnOn⟩
      exact ⟨_, h1, by simp⟩
  · intro hpdg
    obtain ⟨s', _, h, _⟩ := QaMatchEff.trackLoopBody_mc cfg ext cutObject s track mcpart hmc hpdg
    exact ⟨s', h⟩
  · obtain ⟨h1, h5⟩ := hrange
    constructor
    · have : (1 : ℚ) ≤ QaMatchEff.specind |mcpart.pdgCode| := by exact_mod_cast h1
      linarith
    · have : (QaMatchEff.specind |mcpart.pdgCode| : ℚ) ≤ 5 := by exact_mod_cast h5
      linarith

/-- Witness for C15: an antiproton (PDG code -2212) with `makethn` set; the iteration
completes and fills `MC/thnsforfrac` with the species index 4. -/
theorem thnsforfrac_species_index_witness :
    ∃ s' new f, QaMatchEff.trackLoopBody { makethn := true }
        { IsSelected := fun _ _ _ => true, sqrt := fun x => x, PI := 3, TwoPI := 6 } {} true {}
        { hasTRD := false, mcParticle := some ⟨-2212, true, 0, 0, 1⟩, pt := 1,
          tpcInnerParam := 1, tgl := 0, dcaXY := 0, phi := 1, eta := 0, signed1Pt := -1,
          hasTPC := true, hasITS := true, itsClusterMap := 3 } = some s'
      ∧ s'.fills = [] ++ new ∧ f ∈ new ∧ f.hist = "MC/thnsforfrac" ∧ f.values[6]? = some 4 := by
  have h := thnsforfrac_species_index { makethn := true }
    { IsSelected := fun _ _ _ => true, sqrt := fun x => x, PI := 3, TwoPI := 6 } {} {}
    { hasTRD := false, mcParticle := some ⟨-2212, true, 0, 0, 1⟩, pt := 1,
      tpcInnerParam := 1, tgl := 0, dcaXY := 0, phi := 1, eta := 0, signed1Pt := -1,
      hasTPC := true, hasITS := true, itsClusterMap := 3 }
    ⟨-2212, true, 0, 0, 1⟩ rfl
  obtain ⟨s', hs'⟩ := h.2.1 (by decide)
  obtain ⟨new, hnew, hval, hex⟩ := h.1 s' hs'
  obtain ⟨f, hf, hname⟩ := hex (by decide) rfl
  exact ⟨s', new, f, hs', hnew, hf, hname, by simpa using hval f hf hname⟩

/-- C16, the code at a failing input. The label sign is the quotient of the 32-bit `int`s
`pdgCode` and `TMath::Abs(pdgCode)`. For the PDG code 0 the divisor is zero and the division has
no value: with `makethn` set, where the sign is filled into `MC/thnsforfrac`, an MC track whose
particle has PDG code 0 and that passes the TRD requirement and the kinematic selection makes
the iteration, and with it `fillHistograms`, run into this division. For every other code the
quotient is +1 for a positive and -1 for a negative PDG code, except for the smallest `int`,
-2147483648, whose absolute value wraps to itself: the sign filled for this negative code
is +1. -/
theorem signPDGCode_undefined_for_pdg_zero :
    (∀ pdgCode : Int,
        QaMatchEff.signPDGCode pdgCode (QaMatchEff.TMath.Abs pdgCode)
          = if pdgCode = 0 then none
            else if pdgCode = -2147483648 then some 1
            else some (if 0 < pdgCode then 1 else -1))
    ∧ QaMatchEff.TMath.Abs 0 = 0
    ∧ QaMatchEff.TMath.Abs (-2147483648) = -2147483648
    ∧ QaMatchEff.trackLoopBody { makethn := true }
        { IsSelected := fun _ _ _ => true, sqrt := fun x => x, PI := 3, TwoPI := 6 } {} true {}
        { hasTRD := false, mcParticle := some ⟨0, false, 0, 0, 1⟩, pt := 1,
          tpcInnerParam := 1, tgl := 0, dcaXY := 0, phi := 1, eta := 0, signed1Pt := 1,
          hasTPC := true, hasITS := true, itsClusterMap := 3 } = none
    ∧ QaMatchEff.fillHistograms { makethn := true }
        { IsSelected := fun _ _ _ => true, sqrt := fun x => x, PI := 3, TwoPI := 6 } {} true {}
        [{ hasTRD := false, mcParticle := some ⟨0, false, 0, 0, 1⟩, pt := 1,
            tpcInnerParam := 1, tgl := 0, dcaXY := 0, phi := 1, eta := 0, signed1Pt := 1,
            hasTPC := true, hasITS := true, itsClusterMap := 3 }] = none
    ∧ (∃ s', QaMatchEff.trackLoopBody { makethn := true }
          { IsSelected := fun _ _ _ => true, sqrt := fun x => x, PI := 3, TwoPI := 6 } {} true
          {}
          { hasTRD := false, mcParticle := some ⟨-2147483648, false, 0, 0, 1⟩, pt := 1,
            tpcInnerParam := 1, tgl := 0, dcaXY := 0, phi := 1, eta := 0, signed1Pt := 1,
            hasTPC := true, hasITS := true, itsClusterMap := 3 } = some s'
        ∧ s'.fills.filter (fun f => f.hist == "MC/thnsforfrac")
          = [⟨"MC/thnsforfrac", [0, 1, 1, 0, 2, 1, 5]⟩])
    ∧ (∃ s', QaMatchEff.trackLoopBody { makethn := true }
          { IsSelected := fun _ _ _ => true, sqrt := fun x => x, PI := 3, TwoPI := 6 } {} true
          {}
          { hasTRD := false, mcParticle := some ⟨-211, false, 0, 0, 1⟩, pt := 1,
            tpcInnerParam := 1, tgl := 0, dcaXY := 0, phi := 1, eta := 0, signed1Pt := 1,
            hasTPC := true, hasITS := true, itsClusterMap := 3 } = some s'
        ∧ s'.fills.filter (fun f => f.hist == "MC/thnsforfrac")
          = [⟨"MC/thnsforfrac", [0, 1, 1, 0, 2, -1, 2]⟩]) := by
  refine ⟨?_, by decide, by decide, ?_, ?_, ?_, ?_⟩
  · intro pdgCode
    rw [QaMatchEff.signPDGCode_Abs]
    by_cases h0 : pdgCode = 0
    · rw [if_pos h0, if_pos h0]
    · rw [if_neg h0, if_neg h0]
      by_cases hmin : pdgCode = -2147483648
      · rw [if_pos hmin, if_pos (Or.inr hmin)]
      · rw [if_neg hmin]
        by_cases hpos : 0 < pdgCode
        · rw [if_pos hpos, if_pos (Or.inl hpos)]
        · rw [if_neg hpos, if_neg (by tauto)]
  · simp [QaMatchEff.trackLoopBody, QaMatchEff.selectedTrackFills, QaMatchEff.signPDGCode,
      QaMatchEff.TMath.Abs, QaMatchEff.isTrackSelectedKineCuts]
  · simp [QaMatchEff.fillHistograms, QaMatchEff.trackLoopBody, QaMatchEff.selectedTrackFills,
      QaMatchEff.signPDGCode, QaMatchEff.TMath.Abs, QaMatchEff.isTrackSelectedKineCuts]
  · obtain ⟨s', new, hbody, hfills, hthn⟩ := QaMatchEff.trackLoopBody_mc { makethn := true }
      { IsSelected := fun _ _ _ => true, sqrt := fun x => x, PI := 3, TwoPI := 6 } {} {}
      { hasTRD := false, mcParticle := some ⟨-2147483648, false, 0, 0, 1⟩, pt := 1,
        tpcInnerParam := 1, tgl := 0, dcaXY := 0, phi := 1, eta := 0, signed1Pt := 1,
        hasTPC := true, hasITS := true, itsClusterMap := 3 }
      ⟨-2147483648, false, 0, 0, 1⟩ rfl (by decide)
    refine ⟨s', hbody, ?_⟩
    rw [hfills, List.nil_append, hthn]
    simp [QaMatchEff.reachesFills, QaMatchEff.skippedByTRD, QaMatchEff.isTrackSelectedKineCuts,
      QaMatchEff.filledPt, QaMatchEff.sayPrim, QaMatchEff.specind, QaMatchEff.TMath.Abs]
  · obtain ⟨s', new, hbody, hfills, hthn⟩ := QaMatchEff.trackLoopBody_mc { makethn := true }
      { IsSelected := fun _ _ _ => true, sqrt := fun x => x, PI := 3, TwoPI := 6 } {} {}
      { hasTRD := false, mcParticle := some ⟨-211, false, 0, 0, 1⟩, pt := 1,
        tpcInnerParam := 1, tgl := 0, dcaXY := 0, phi := 1, eta := 0, signed1Pt := 1,
        hasTPC := true, hasITS := true, itsClusterMap := 3 }
      ⟨-211, false, 0, 0, 1⟩ rfl (by decide)
    refine ⟨s', hbody, ?_⟩
    rw [hfills, List.nil_append, hthn]
    simp [QaMatchEff.reachesFills, QaMatchEff.skippedByTRD, QaMatchEff.isTrackSelectedKineCuts,
      QaMatchEff.filledPt, QaMatchEff.sayPrim, QaMatchEff.specind, QaMatchEff.TMath.Abs]

/-- C18, the code at a failing input. A pion (PDG code 211) that is neither a physical primary
nor from a decay (process 5), with TPC and ITS and the track selections off, fills the TPC
histogram of the material-secondary pions, `MC/pthist_tpc_pi_secm`, but for the TPC+ITS tag it
fills the histograms of the decay-secondary pions, `MC/pthist_tpcits_pi_secd`,
`MC/phihist_tpcits_pi_secd` and `MC/etahist_tpcits_pi_secd`. No track at all fills
`MC/pthist_tpcits_pi_secm`, `MC/phihist_tpcits_pi_secm` or `MC/etahist_tpcits_pi_secm`, which
`initMC` books. -/
theorem material_secondary_pion_fills_tpcits_pi_secd :
    (∃ s', QaMatchEff.trackLoopBody {}
          { IsSelected := fun _ _ _ => true, sqrt := fun x => x, PI := 3, TwoPI := 6 } {} true
          {}
          { hasTRD := false, mcParticle := some ⟨211, false, 5, 0, 1⟩, pt := 1,
            tpcInnerParam := 1, tgl := 0, dcaXY := 0, phi := 1, eta := 0, signed1Pt := 1,
            hasTPC := true, hasITS := true, itsClusterMap := 3 } = some s'
        ∧ (⟨"MC/pthist_tpc_pi_secm", [1]⟩ : QaMatchEff.Fill) ∈ s'.fills
        ∧ (⟨"MC/pthist_tpcits_pi_secd", [1]⟩ : QaMatchEff.Fill) ∈ s'.fills
        ∧ (⟨"MC/phihist_tpcits_pi_secd", [1]⟩ : QaMatchEff.Fill) ∈ s'.fills
        ∧ (⟨"MC/etahist_tpcits_pi_secd", [0]⟩ : QaMatchEff.Fill) ∈ s'.fills
        ∧ s'.fills.filter (fun f => f.hist == "MC/pthist_tpcits_pi_secm"
            || f.hist == "MC/phihist_tpcits_pi_secm"
            || f.hist == "MC/etahist_tpcits_pi_secm") = [])
    ∧ (∀ (cfg : QaMatchEff.Configurables) (ext : QaMatchEff.Externals)
        (cutObject : QaMatchEff.TrackSelection) (mc : Option QaMatchEff.McParticle)
        (trackPt : ℚ) (track : QaMatchEff.Track),
        ((QaMatchEff.selectedTrackFills cfg ext cutObject mc trackPt track).getD []).filter
            (fun f => f.hist == "MC/pthist_tpcits_pi_secm"
              || f.hist == "MC/phihist_tpcits_pi_secm"
              || f.hist == "MC/etahist_tpcits_pi_secm") = [])
    ∧ "MC/pthist_tpcits_pi_secm" ∈ QaMatchEff.initMC {}
    ∧ "MC/phihist_tpcits_pi_secm" ∈ QaMatchEff.initMC {}
    ∧ "MC/etahist_tpcits_pi_secm" ∈ QaMatchEff.initMC {} := by
  have hgen : ∀ (cfg : QaMatchEff.Configurables) (ext : QaMatchEff.Externals)
      (cutObject : QaMatchEff.TrackSelection) (mc : Option QaMatchEff.McParticle)
      (trackPt : ℚ) (track : QaMatchEff.Track),
      ((QaMatchEff.selectedTrackFills cfg ext cutObject mc trackPt track).getD []).filter
          (fun f => f.hist == "MC/pthist_tpcits_pi_secm"
            || f.hist == "MC/phihist_tpcits_pi_secm"
            || f.hist == "MC/etahist_tpcits_pi_secm") = [] := by
    intro cfg ext cutObject mc trackPt track
    cases h : QaMatchEff.selectedTrackFills cfg ext cutObject mc trackPt track with
    | none => rfl
    | some fills => exact QaMatchEff.selectedTrackFills_never_tpcits_pi_secm _ _ _ _ _ _ _ h
  refine ⟨⟨_, rfl, ?_, ?_, ?_, ?_, ?_⟩, hgen, ?_, ?_, ?_⟩
  · simp [QaMatchEff.selectedTrackFills, QaMatchEff.signPDGCode, QaMatchEff.TMath.Abs,
      QaMatchEff.mcFills,
      QaMatchEff.tpcItsFills, QaMatchEff.ptPhiEta, QaMatchEff.isTrackSelectedTPCCuts,
      QaMatchEff.isTrackSelectedITSCuts]
  · simp [QaMatchEff.selectedTrackFills, QaMatchEff.signPDGCode, QaMatchEff.TMath.Abs,
      QaMatchEff.mcFills,
      QaMatchEff.tpcItsFills, QaMatchEff.ptPhiEta, QaMatchEff.isTrackSelectedTPCCuts,
      QaMatchEff.isTrackSelectedITSCuts]
  · simp [QaMatchEff.selectedTrackFills, QaMatchEff.signPDGCode, QaMatchEff.TMath.Abs,
      QaMatchEff.mcFills,
      QaMatchEff.tpcItsFills, QaMatchEff.ptPhiEta, QaMatchEff.isTrackSelectedTPCCuts,
      QaMatchEff.isTrackSelectedITSCuts]
  · simp [QaMatchEff.selectedTrackFills, QaMatchEff.signPDGCode, QaMatchEff.TMath.Abs,
      QaMatchEff.mcFills,
      QaMatchEff.tpcItsFills, QaMatchEff.ptPhiEta, QaMatchEff.isTrackSelectedTPCCuts,
      QaMatchEff.isTrackSelectedITSCuts]
  · exact hgen {} { IsSelected := fun _ _ _ => true, sqrt := fun x => x, PI := 3, TwoPI := 6 }
      {} (some ⟨211, false, 5, 0, 1⟩) 1
      { hasTRD := false, mcParticle := some ⟨211, false, 5, 0, 1⟩, pt := 1,
        tpcInnerParam := 1, tgl := 0, dcaXY := 0, phi := 1, eta := 0, signed1Pt := 1,
        hasTPC := true, hasITS := true, itsClusterMap := 3 }
  · simp [QaMatchEff.initMC]
  · simp [QaMatchEff.initMC]
  · simp [QaMatchEff.initMC]

/-- C19, the code at a failing input. A pion (PDG code 211) that is a secondary from a decay
(not a physical primary, process 4), with TPC and ITS and the track selections off, fills the
histograms "all but primary/secondary pions": `MC/pthist_tpc_nopi`, `MC/phihist_tpc_nopi`,
`MC/etahist_tpc_nopi`, `MC/pdghist_den`, and with the ITS also `MC/pthist_tpcits_nopi` and
`MC/pdghist_num`. In general a track fills `MC/pthist_tpc_nopi` iff it passes the TPC
requirement and is not a pion that is a physical primary: the process code plays no part. -/
theorem decay_secondary_pion_fills_nopi :
    (∃ s', QaMatchEff.trackLoopBody {}
          { IsSelected := fun _ _ _ => true, sqrt := fun x => x, PI := 3, TwoPI := 6 } {} true
          {}
          { hasTRD := false, mcParticle := some ⟨211, false, 4, 0, 1⟩, pt := 1,
            tpcInnerParam := 1, tgl := 0, dcaXY := 0, phi := 1, eta := 0, signed1Pt := 1,
            hasTPC := true, hasITS := true, itsClusterMap := 3 } = some s'
        ∧ (⟨"MC/pthist_tpc_nopi", [1]⟩ : QaMatchEff.Fill) ∈ s'.fills
        ∧ (⟨"MC/phihist_tpc_nopi", [1]⟩ : QaMatchEff.Fill) ∈ s'.fills
        ∧ (⟨"MC/etahist_tpc_nopi", [0]⟩ : QaMatchEff.Fill) ∈ s'.fills
        ∧ (⟨"MC/pdghist_den", [QaMatchEff.pdg_fill 211]⟩ : QaMatchEff.Fill) ∈ s'.fills
        ∧ (⟨"MC/pthist_tpcits_nopi", [1]⟩ : QaMatchEff.Fill) ∈ s'.fills
        ∧ (⟨"MC/pdghist_num", [QaMatchEff.pdg_fill 211]⟩ : QaMatchEff.Fill) ∈ s'.fills)
    ∧ (∀ (mcpart : QaMatchEff.McParticle) (tpPDGCode : Int) (tpcTag itsTag : Bool)
        (trackPt : ℚ) (track : QaMatchEff.Track),
        (QaMatchEff.mcFills mcpart tpPDGCode tpcTag itsTag trackPt track).filter
            (fun f => f.hist == "MC/pthist_tpc_nopi")
          = if (!(tpPDGCode == 211 && mcpart.isPhysicalPrimary) && tpcTag) = true then
              [⟨"MC/pthist_tpc_nopi", [trackPt]⟩]
            else []) := by
  refine ⟨⟨_, rfl, ?_, ?_, ?_, ?_, ?_, ?_⟩, QaMatchEff.filter_nopi_mcFills⟩
  · simp [QaMatchEff.selectedTrackFills, QaMatchEff.signPDGCode, QaMatchEff.TMath.Abs,
      QaMatchEff.mcFills,
      QaMatchEff.tpcItsFills, QaMatchEff.ptPhiEta, QaMatchEff.isTrackSelectedTPCCuts,
      QaMatchEff.isTrackSelectedITSCuts]
  · simp [QaMatchEff.selectedTrackFills, QaMatchEff.signPDGCode, QaMatchEff.TMath.Abs,
      QaMatchEff.mcFills,
      QaMatchEff.tpcItsFills, QaMatchEff.ptPhiEta, QaMatchEff.isTrackSelectedTPCCuts,
      QaMatchEff.isTrackSelectedITSCuts]
  · simp [QaMatchEff.selectedTrackFills, QaMatchEff.signPDGCode, QaMatchEff.TMath.Abs,
      QaMatchEff.mcFills,
      QaMatchEff.tpcItsFills, QaMatchEff.ptPhiEta, QaMatchEff.isTrackSelectedTPCCuts,
      QaMatchEff.isTrackSelectedITSCuts]
  · simp [QaMatchEff.selectedTrackFills, QaMatchEff.signPDGCode, QaMatchEff.TMath.Abs,
      QaMatchEff.mcFills,
      QaMatchEff.tpcItsFills, QaMatchEff.ptPhiEta, QaMatchEff.isTrackSelectedTPCCuts,
      QaMatchEff.isTrackSelectedITSCuts]
  · simp [QaMatchEff.selectedTrackFills, QaMatchEff.signPDGCode, QaMatchEff.TMath.Abs,
      QaMatchEff.mcFills,
      QaMatchEff.tpcItsFills, QaMatchEff.ptPhiEta, QaMatchEff.isTrackSelectedTPCCuts,
      QaMatchEff.isTrackSelectedITSCuts]
  · simp [QaMatchEff.selectedTrackFills, QaMatchEff.signPDGCode, QaMatchEff.TMath.Abs,
      QaMatchEff.mcFills,
      QaMatchEff.tpcItsFills, QaMatchEff.ptPhiEta, QaMatchEff.isTrackSelectedTPCCuts,
      QaMatchEff.isTrackSelectedITSCuts]
